import Mathlib

/-!
Verification development for the Pillar repository.

Shallow embedding of:
  * `pillar/api/custom_field_validation.py` — `ValidateCustomFields.convert_properties`,
    `convert_dict_values`, `_validate_valid_properties`;
  * `pillar/api/organizations/__init__.py` — `OrgManager.assign_users`,
    `remove_user`, `refresh_roles` and the `NotEnoughSeats` error.

Python dicts are embedded as association lists (`List (String × Value)`); in-place
mutation plus exception propagation is embedded by state passing: every conversion
function returns the (possibly partly rewritten, as left behind by an exception)
structure together with `Option PyErr`, where `some e` means the Python code raised
exception `e` at that point, leaving the returned structure as mutated so far.
-/

/-- Embedding of a Python `datetime.datetime`: calendar fields plus `tzinfo`,
where `none` is a naive datetime and `some ()` is `bson.tz_util.utc`. -/
structure PyDatetime where
  year : Nat
  month : Nat
  day : Nat
  hour : Nat
  minute : Nat
  second : Nat
  tzinfo : Option Unit
deriving DecidableEq, Repr

/-- The Python exceptions that the coercion code in
`custom_field_validation.py` can raise. -/
inductive PyErr : Type where
  /-- `KeyError`, raised by `raise KeyError(f"missing 'valuesrules' key ...")`. -/
  | keyError
  /-- `TypeError`, e.g. `datetime.strptime` applied to a non-string, or
  iterating/indexing a value of the wrong type. -/
  | typeError
  /-- `ValueError` from `datetime.strptime` on a string not matching the format. -/
  | parseError
  /-- `bson.errors.InvalidId` / `TypeError` from `ObjectId(...)` on a bad input. -/
  | invalidId
  /-- `AssertionError` from the `assert` statements in `convert_dict_values`. -/
  | assertionError
deriving DecidableEq, Repr

/-- Embedding of the Python values that flow through `convert_properties`. -/
inductive Value : Type where
  | vNone : Value
  | vBool : Bool → Value
  | vInt : Int → Value
  | vStr : String → Value
  | vDatetime : PyDatetime → Value
  /-- A `bson.ObjectId`, carrying its 24-hex-digit string. -/
  | vObjectId : String → Value
  | vList : List Value → Value
  | vDict : List (String × Value) → Value

/-- Embedding of one schema entry (`schema_prop` in the source): a dict with a
`'type'` key and optional `'schema'`, `'valuesrules'`, `'valueschema'` keys.
The Python `'schema'` key holds a field→schema mapping when `type == 'dict'`
(field `schemaMap`) and a single item descriptor when `type == 'list'`
(field `schemaItem`); the embedding splits it by use site. -/
inductive SchemaProp : Type where
  | mk (ptype : String)
       (schemaMap : Option (List (String × SchemaProp)))
       (schemaItem : Option SchemaProp)
       (valuesrules : Option SchemaProp)
       (valueschema : Option SchemaProp)

/-- The `'type'` entry of a schema prop (`schema_prop['type']`). -/
def SchemaProp.ptype : SchemaProp → String
  | .mk t _ _ _ _ => t

/-- The `'schema'` entry of a dict-typed schema prop. -/
def SchemaProp.schemaMap : SchemaProp → Option (List (String × SchemaProp))
  | .mk _ sm _ _ _ => sm

/-- The `'schema'` entry of a list-typed schema prop. -/
def SchemaProp.schemaItem : SchemaProp → Option SchemaProp
  | .mk _ _ si _ _ => si

/-- The `'valuesrules'` entry of a schema prop. -/
def SchemaProp.valuesrules : SchemaProp → Option SchemaProp
  | .mk _ _ _ vr _ => vr

/-- The `'valueschema'` entry of a schema prop. -/
def SchemaProp.valueschema : SchemaProp → Option SchemaProp
  | .mk _ _ _ _ vs => vs

/-- A node schema: a Python dict mapping property names to schema props,
kept in insertion order. -/
abbrev Schema := List (String × SchemaProp)

/-- A properties mapping: a Python dict mapping property names to values,
kept in insertion order. -/
abbrev Props := List (String × Value)

/-- Python `prop in properties` / `properties[prop]` on a dict:
first occurrence wins. -/
def lookupProp : Props → String → Option Value
  | [], _ => none
  | (k, v) :: rest, key => if k = key then some v else lookupProp rest key

/-- Python `properties[prop] = v` for an existing key: replaces the value in
place, keeping insertion order. (The source only assigns keys that passed the
`prop not in properties: continue` guard, so the key is always present.) -/
def setKey : Props → String → Value → Props
  | [], _, _ => []
  | (k, w) :: rest, key, v =>
    if k = key then (k, v) :: rest else (k, w) :: setKey rest key v

/-- Python truthiness of an embedded value (`if prop_val:`). -/
def truthy : Value → Bool
  | .vNone => false
  | .vBool b => b
  | .vInt n => n != 0
  | .vStr s => !s.isEmpty
  | .vDatetime _ => true
  | .vObjectId _ => true
  | .vList l => !l.isEmpty
  | .vDict l => !l.isEmpty

/-- Python `properties[prop] in ['', '[]']` — equality with one of the two
string sentinels (values of other types compare unequal to both). -/
def isEmptySentinel : Value → Bool
  | .vStr "" => true
  | .vStr "[]" => true
  | _ => false

/-- Whether a character is a hexadecimal digit. -/
def isHexChar (c : Char) : Bool :=
  c.isDigit || ('a' ≤ c && c ≤ 'f') || ('A' ≤ c && c ≤ 'F')

/-- Valid argument to `bson.ObjectId`: a 24-character hexadecimal string. -/
def isHex24 (s : String) : Bool :=
  s.length = 24 && s.toList.all isHexChar

/-- Python `s.startswith(pre)`: `pre` is a leading piece of `s`. Embedded via
character lists so that it evaluates inside the kernel. -/
def pyStartsWith (s pre : String) : Bool :=
  pre.toList.isPrefixOf s.toList

/-- A date parser standing for `datetime.strptime(·, date_format)` with the
configured `RFC1123_DATE_FORMAT`: `none` means `strptime` raised `ValueError`.
`strptime` without a `%z` directive returns a naive datetime. -/
abbrev DateParser := String → Option PyDatetime

mutual

/-- Embedding of `ValidateCustomFields.convert_properties(self, properties, node_schema)`.

Walks the schema entries in order; skips fields absent from `properties`
(`if prop not in properties: continue`); dispatches on the declared type.
Returns the mapping as mutated so far together with the exception raised, if any
(the Python function mutates `properties` in place and returns it). -/
def convertProperties (parser : DateParser) (properties : Props) (node_schema : Schema) :
    Props × Option PyErr :=
  match node_schema with
  | [] => (properties, none)
  | (prop, schema_prop) :: rest =>
    match lookupProp properties prop with
    | none => convertProperties parser properties rest
    | some v =>
      match convertField parser v schema_prop with
      | (v', some e) => (setKey properties prop v', some e)
      | (v', none) => convertProperties parser (setKey properties prop v') rest
termination_by (sizeOf node_schema, 0)

/-- Embedding of one iteration of the loop body of `convert_properties` for a
single present field: the per-type dispatch on `schema_prop['type']`.

The `'list'` branch of the source converts each element by wrapping it in a
singleton mapping `{'item': element}` with schema `{'item': schema_prop['schema']}`
and unwrapping the result; on a singleton that round trip is exactly this
function (theorem `convertProperties_singleton`), so the embedding calls it
directly (the list loop itself is `convertElements`).

The `'dict'` branch embeds the `try/except KeyError` of the source: the `try`
covers both the `schema_prop['schema']` lookup and the recursive
`convert_properties` call, so a `KeyError` escaping the recursion also selects
the `valuesrules`/`valueschema` fallback, which then operates on the in-place
partly converted nested dict.

Calling the source with a non-dict `properties` argument (possible when a
dict-typed field holds a non-dict value) raises a `TypeError` at the membership
or indexing operation and is embedded as an immediate `typeError`; feeding a
non-list where the `'list'` branch iterates likewise raises `TypeError` at the
element assignment. -/
def convertField (parser : DateParser) (v : Value) (schema_prop : SchemaProp) :
    Value × Option PyErr :=
  match schema_prop with
  | .mk ptype schemaMap schemaItem valuesrules valueschema =>
    if ptype = "dict" then
      match schemaMap with
      | some dict_valueschema =>
        match v with
        | .vDict entries =>
          dictTryResult parser (convertProperties parser entries dict_valueschema)
            valuesrules valueschema
        | _ => (v, some .typeError)
      | none =>
        -- `schema_prop['schema']` raises KeyError, caught by `except KeyError:`.
        dictFallback parser v valuesrules valueschema
    else if ptype = "list" then
      -- `if properties[prop] in ['', '[]']: properties[prop] = []`; the loop
      -- then runs over the empty list, so a sentinel yields `[]` either way.
      if isEmptySentinel v then (.vList [], none)
      else
        match schemaItem with
        | none => (v, none)
        | some item_schema =>
          match v with
          | .vList elems =>
            match convertElements parser elems item_schema with
            | (elems', e) => (.vList elems', e)
          | _ => (v, some .typeError)
    else if ptype = "datetime" then
      -- prop_naieve = datetime.strptime(prop_val, date_format)
      -- prop_aware = prop_naieve.replace(tzinfo=tz_util.utc)
      match v with
      | .vStr s =>
        match parser s with
        | some prop_naieve => (.vDatetime { prop_naieve with tzinfo := some () }, none)
        | none => (v, some .parseError)
      | _ => (v, some .typeError)
    else if ptype = "objectid" then
      if truthy v then
        match v with
        | .vStr s => if isHex24 s then (.vObjectId s, none) else (v, some .invalidId)
        | .vObjectId oid => (.vObjectId oid, none)
        | _ => (v, some .invalidId)
      else (.vNone, none)
    else (v, none)
termination_by (sizeOf schema_prop, 0)

/-- Dispatch on the outcome of the recursive `convert_properties` call of the
`'dict'` branch: a `KeyError` escaping it is caught by this branch's
`except KeyError:` and selects the `valuesrules`/`valueschema` fallback, which
then operates on the in-place partly converted nested dict; any other exception
propagates; on success the converted dict is assigned back. -/
def dictTryResult (parser : DateParser) (res : Props × Option PyErr)
    (valuesrules valueschema : Option SchemaProp) : Value × Option PyErr :=
  match res with
  | (entries', some .keyError) => dictFallback parser (.vDict entries') valuesrules valueschema
  | (entries', some e) => (.vDict entries', some e)
  | (entries', none) => (.vDict entries', none)
termination_by (sizeOf valuesrules + sizeOf valueschema, 2)

/-- The `except KeyError:` fallback of the `'dict'` branch:
`dict_valueschema = schema_prop.get('valuesrules') or schema_prop.get('valueschema')`;
raises `KeyError` when both are missing, otherwise runs `convert_dict_values`
(which mutates in place; its `None` return value is not assigned back). -/
def dictFallback (parser : DateParser) (v : Value)
    (valuesrules valueschema : Option SchemaProp) : Value × Option PyErr :=
  match valuesrules, valueschema with
  | none, none => (v, some .keyError)
  | some dict_valueschema, _ =>
    match v with
    | .vDict entries =>
      match convertDictValues parser entries dict_valueschema with
      | (entries', e) => (.vDict entries', e)
    | _ =>
      -- `assert isinstance(dict_property, dict)` fails.
      (v, some .assertionError)
  | none, some dict_valueschema =>
    match v with
    | .vDict entries =>
      match convertDictValues parser entries dict_valueschema with
      | (entries', e) => (.vDict entries', e)
    | _ =>
      -- `assert isinstance(dict_property, dict)` fails.
      (v, some .assertionError)
termination_by (sizeOf valuesrules + sizeOf valueschema, 1)

/-- Embedding of `ValidateCustomFields.convert_dict_values(self, dict_property,
dict_valueschema)`: asserts the valueschema is dict-typed, then converts every
value of the dict (keys untouched) through the singleton `{'item': ...}` round
trip, i.e. through `convertField`. -/
def convertDictValues (parser : DateParser) (entries : List (String × Value))
    (dict_valueschema : SchemaProp) : List (String × Value) × Option PyErr :=
  if dict_valueschema.ptype = "dict" then
    match entries with
    | [] => ([], none)
    | (k, val) :: rest =>
      match convertField parser val dict_valueschema with
      | (v', some e) => ((k, v') :: rest, some e)
      | (v', none) =>
        match convertDictValues parser rest dict_valueschema with
        | (rest', e) => ((k, v') :: rest', e)
  else
    -- `assert dict_valueschema['type'] == 'dict'` fails.
    (entries, some .assertionError)
termination_by (sizeOf dict_valueschema, 1 + entries.length)

/-- The element loop of the `'list'` branch:
`for k, val in enumerate(properties[prop]): properties[prop][k] = ...`.
Elements are converted left to right; an exception stops the loop, leaving
earlier elements converted and the failing element as mutated in place. -/
def convertElements (parser : DateParser) (elems : List Value) (item_schema : SchemaProp) :
    List Value × Option PyErr :=
  match elems with
  | [] => ([], none)
  | e :: rest =>
    match convertField parser e item_schema with
    | (e', some err) => (e' :: rest, some err)
    | (e', none) =>
      match convertElements parser rest item_schema with
      | (rest', err) => (e' :: rest', err)
termination_by (sizeOf item_schema, 1 + elems.length)

end

/-- Whether a value is a Python dict. -/
def Value.isDict : Value → Bool
  | .vDict _ => true
  | _ => false

/-- Whether a value is a Python list. -/
def Value.isList : Value → Bool
  | .vList _ => true
  | _ => false

/-- Whether a value is a Python string. -/
def Value.isStr : Value → Bool
  | .vStr _ => true
  | _ => false

/-- Whether a value is a `bson.ObjectId`. -/
def Value.isObjectId : Value → Bool
  | .vObjectId _ => true
  | _ => false

mutual

/-- Schema restriction under which `convert_properties` is idempotent:
no `'datetime'`-typed entry anywhere (the second pass would feed the converted
timestamp back to `strptime`, a `TypeError`), and no dict-typed entry carrying
both an inner `'schema'` and a `'valuesrules'`/`'valueschema'` (whose
`except KeyError` interleaving applies two different schemas to one value). -/
def spStable (sp : SchemaProp) : Bool :=
  match sp with
  | .mk ptype schemaMap schemaItem valuesrules valueschema =>
    ptype ≠ "datetime" &&
    !(schemaMap.isSome && (valuesrules.isSome || valueschema.isSome)) &&
    (match schemaMap with | none => true | some sub => schemaStable sub) &&
    (match schemaItem with | none => true | some p => spStable p) &&
    (match valuesrules with | none => true | some p => spStable p) &&
    (match valueschema with | none => true | some p => spStable p)
termination_by sizeOf sp

/-- A schema is stable when its keys are pairwise distinct (as in a Python
dict) and every entry is stable. -/
def schemaStable (sch : Schema) : Bool :=
  match sch with
  | [] => true
  | (prop, sp) :: rest =>
    rest.all (fun p => !(p.1 == prop)) && spStable sp && schemaStable rest
termination_by sizeOf sch

end

/-! ### A concrete date parser: `datetime.strptime` with format `%Y-%m-%dT%H:%M:%S` -/

/-- Numeric value of two decimal digit characters. -/
def twoDigits (a b : Char) : Nat :=
  (a.toNat - 48) * 10 + (b.toNat - 48)

/-- Gregorian leap year, as used by `datetime`. -/
def isLeapYear (y : Nat) : Bool :=
  (y % 4 = 0 && y % 100 != 0) || y % 400 = 0

/-- Days in a month, as validated by `datetime.strptime`. -/
def daysInMonth (y m : Nat) : Nat :=
  if m = 2 then (if isLeapYear y then 29 else 28)
  else if m = 4 || m = 6 || m = 9 || m = 11 then 30
  else 31

/-- Model of `datetime.strptime(s, '%Y-%m-%dT%H:%M:%S')`: four year digits,
two month/day/hour/minute/second digits with the literal separators, checked
against the calendar; returns a naive datetime, or `none` for `ValueError`. -/
def strptimeIso (s : String) : Option PyDatetime :=
  match s.toList with
  | [y1, y2, y3, y4, '-', m1, m2, '-', d1, d2, 'T', h1, h2, ':', n1, n2, ':', s1, s2] =>
    if [y1, y2, y3, y4, m1, m2, d1, d2, h1, h2, n1, n2, s1, s2].all Char.isDigit then
      let year := twoDigits y1 y2 * 100 + twoDigits y3 y4
      let month := twoDigits m1 m2
      let day := twoDigits d1 d2
      let hour := twoDigits h1 h2
      let minute := twoDigits n1 n2
      let second := twoDigits s1 s2
      if 1 ≤ year && 1 ≤ month && month ≤ 12 && 1 ≤ day && day ≤ daysInMonth year month
          && hour ≤ 23 && minute ≤ 59 && second ≤ 59 then
        some ⟨year, month, day, hour, minute, second, none⟩
      else none
    else none
  | _ => none

/-! ### Organization management (`pillar/api/organizations/__init__.py`) -/

/-- A document of the `users` collection, projected to what `OrgManager` reads. -/
structure UserDoc where
  uid : String
  email : String
  roles : List String
deriving DecidableEq, Repr

/-- An organization document. The source stores `members`/`unknown_members` as
lists but converts them to Python sets before every use (`set(org_doc.get(...))`),
so the embedding keeps them as finite sets; `org_roles` is aggregated through
Mongo's `$addToSet`, likewise a set. `seat_count` is a Python int. -/
structure Organization where
  org_id : String
  seat_count : Int
  members : Finset String
  unknown_members : Finset String
  org_roles : Finset String
deriving DecidableEq

/-- The `NotEnoughSeats` exception: `(org_id, seat_count, attempted_seat_count)`. -/
structure NotEnoughSeats where
  org_id : String
  seat_count : Int
  attempted_seat_count : Int
deriving DecidableEq, Repr

/-- `users_coll.find_one(user_id)`. -/
def findUserById (db : List UserDoc) (user_id : String) : Option UserDoc :=
  db.find? (fun u => u.uid == user_id)

/-- `users_coll.find_one({'email': email})`. -/
def findUserByEmail (db : List UserDoc) (email : String) : Option UserDoc :=
  db.find? (fun u => u.email == email)

/-- Embedding of `OrgManager.assign_users(self, org_id, emails)`.

Looks the emails up in the users collection
(`users_coll.find({'email': {'$in': emails}})`), splits them into resolved
members and unknown members, unions them with the organization's current sets,
and raises `NotEnoughSeats` when the resulting seat total exceeds `seat_count`;
otherwise persists the updated organization document. (The subsequent
`refresh_roles` calls for the newly added known users touch only user role
state, not the organization document, and are not part of this embedding.) -/
def assign_users (db : List UserDoc) (org : Organization) (emails : List String) :
    Except NotEnoughSeats Organization :=
  let existing_user_docs := db.filter (fun u => emails.contains u.email)
  let unknown_users := emails.toFinset \ (existing_user_docs.map (·.email)).toFinset
  let existing_users := (existing_user_docs.map (·.uid)).toFinset
  let members := org.members ∪ existing_users
  let unknown_members := org.unknown_members ∪ unknown_users
  let new_seat_count := members.card + unknown_members.card
  if (new_seat_count : Int) > org.seat_count then
    .error ⟨org.org_id, org.seat_count, (new_seat_count : Int)⟩
  else
    .ok { org with members := members, unknown_members := unknown_members }

/-- The organization document as persisted after `assign_users`: the exception
is raised before `put_internal`, so on `NotEnoughSeats` the stored document is
unchanged. -/
def assignUsersState (db : List UserDoc) (org : Organization) (emails : List String) :
    Organization :=
  match assign_users db org emails with
  | .ok updated => updated
  | .error _ => org

/-- Embedding of `OrgManager.remove_user(self, org_id, *, user_id, email)`.

Returns `none` when the `assert user_id or email` fails (an `ObjectId` is
always truthy; an email string is truthy iff nonempty); otherwise returns the
persisted organization document together with the user id passed to
`refresh_roles`, when one was known (`if user_id: self.refresh_roles(user_id)`). -/
def remove_user (db : List UserDoc) (org : Organization)
    (user_id : Option String) (email : Option String) :
    Option (Organization × Option String) :=
  if user_id.isSome || (match email with | some e => !e.isEmpty | none => false) then
    -- if email is None: resolve it from the user document, when found.
    let email : Option String := match email with
      | none => (match user_id with
                 | some uid => (findUserById db uid).map (fun u => u.email)
                 | none => none)
      | some e => some e
    -- if user_id is None: resolve it from the email, when found.
    let user_id : Option String := match user_id with
      | none => (match email with
                 | some e => (findUserByEmail db e).map (fun u => u.uid)
                 | none => none)
      | some uid => some uid
    -- if user_id: members = set(...) - {user_id}
    let org := match user_id with
      | some uid => { org with members := org.members.erase uid }
      | none => org
    -- if email: unknown_members = set(...) - {email}
    let org := match email with
      | some e => if e.isEmpty then org
                  else { org with unknown_members := org.unknown_members.erase e }
      | none => org
    some (org, user_id)
  else none

/-- A call to `pillar.api.service.do_badger(action, roles=..., user_id=...)`,
the external role-management collaborator. -/
structure BadgerCall where
  action : String
  roles : Finset String
  user_id : String
deriving DecidableEq

/-- The Mongo aggregation of `refresh_roles`: match the organizations whose
`members` contain the user, unwind `org_roles`, and collect the distinct roles
(`$addToSet`) — the union of `org_roles` over the user's organizations. -/
def aggregateOrgRoles (orgs : List Organization) (user_id : String) : Finset String :=
  orgs.foldr (fun o acc => if user_id ∈ o.members then o.org_roles ∪ acc else acc) ∅

/-- Embedding of `OrgManager.refresh_roles(self, user_id)`: aggregates the
org-given roles, diffs them against the user's current roles, and issues at
most one batch `grant` and one batch `revoke` call to `do_badger`
(`if grant_roles: do_badger('grant', roles=grant_roles, ...)`).
Returns the list of issued calls, or `none` when the user document is missing
(where the source would raise on `user_doc.get`). -/
def refresh_roles (orgs : List Organization) (db : List UserDoc) (user_id : String) :
    Option (List BadgerCall) :=
  let org_roles := aggregateOrgRoles orgs user_id
  match findUserById db user_id with
  | none => none
  | some user_doc =>
    let all_user_roles := user_doc.roles.toFinset
    let existing_org_roles := all_user_roles.filter (fun role => pyStartsWith role "org-")
    let grant_roles := org_roles \ all_user_roles
    let revoke_roles := existing_org_roles \ org_roles
    some ((if grant_roles ≠ ∅ then [⟨"grant", grant_roles, user_id⟩] else []) ++
          (if revoke_roles ≠ ∅ then [⟨"revoke", revoke_roles, user_id⟩] else []))

/-- All roles granted across a list of badger calls. -/
def grantedRoles (calls : List BadgerCall) : Finset String :=
  calls.foldr (fun c acc => if c.action = "grant" then c.roles ∪ acc else acc) ∅

/-- All roles revoked across a list of badger calls. -/
def revokedRoles (calls : List BadgerCall) : Finset String :=
  calls.foldr (fun c acc => if c.action = "revoke" then c.roles ∪ acc else acc) ∅

/-! ### Node validation entry point (`_validate_valid_properties`) -/

/-- One entry of a project's `node_types`, projected to
`node_types.name` / `node_types.dyn_schema`. -/
structure NodeType where
  name : String
  dyn_schema : Schema

/-- A project document, as projected by the lookup in
`_validate_valid_properties`. -/
structure ProjectDoc where
  node_types : List NodeType

/-- The validated node document (`self.document`), projected to the fields the
entry point reads. -/
structure NodeDoc where
  project : String
  node_type : String

/-- Modelled from the spec: `project_get_node_type` is imported from
`pillar.api.utils`, which is not among the sources; per the spec the node's
declared `node_type` is located among the project's `node_types` by name,
yielding `None` when absent. -/
def project_get_node_type (project : ProjectDoc) (node_type_name : String) :
    Option NodeType :=
  project.node_types.find? (fun nt => nt.name == node_type_name)

/-- Observable outcome of `_validate_valid_properties`: the field errors
recorded through `self._error`, the Python return value (`none` embeds falling
off the end, i.e. returning `None`), the mapping handed to the structural
validator, whether that validator ran at all, and the value written back to
`self.document[field]` on success. -/
structure ValidationOutcome where
  errors : List (String × String)
  retval : Option Bool
  validated : Props
  validatorRan : Bool
  document_field : Option Props

/-- Embedding of `ValidateCustomFields._validate_valid_properties`.

`lookupProject` stands for the projected `projects_collection.find_one`;
`validate` stands for the structural Cerberus validator
`self.__class__(schema=node_type['dyn_schema'])`, returning its verdict and its
`document`. The `try/except Exception` around `convert_properties` is embedded
by dropping the returned error: validation always proceeds on the mapping as
coerced so far. -/
def validateValidProperties (lookupProject : String → Option ProjectDoc)
    (validate : Schema → Props → Bool × Props) (parser : DateParser)
    (doc : NodeDoc) (field : String) (value : Props) : ValidationOutcome :=
  match lookupProject doc.project with
  | none =>
    { errors := [(field, "Unknown project")], retval := some false,
      validated := value, validatorRan := false, document_field := none }
  | some project =>
    match project_get_node_type project doc.node_type with
    | none =>
      { errors := [(field, "Unknown node type")], retval := some false,
        validated := value, validatorRan := false, document_field := none }
    | some node_type =>
      -- try: value = self.convert_properties(value, node_type['dyn_schema'])
      -- except Exception: log.warning(...)   (the mutation so far is kept)
      let value := (convertProperties parser value node_type.dyn_schema).1
      let vres := validate node_type.dyn_schema value
      if vres.1 then
        { errors := [], retval := some true,
          validated := value, validatorRan := true, document_field := some vres.2 }
      else
        { errors := [(field, "Error validating properties")], retval := none,
          validated := value, validatorRan := true, document_field := none }

/-! ### Lemmas about the dict operations -/

theorem lookupProp_setKey_self {ps : Props} {k : String} {w : Value} (v : Value)
    (h : lookupProp ps k = some w) : lookupProp (setKey ps k v) k = some v := by
  induction ps with
  | nil => simp [lookupProp] at h
  | cons p rest ih =>
    obtain ⟨k', w'⟩ := p
    by_cases hk : k' = k
    · subst hk; simp [lookupProp, setKey]
    · simp only [lookupProp, setKey, if_neg hk] at h ⊢
      exact ih h

theorem lookupProp_setKey_ne {k k' : String} (ps : Props) (v : Value)
    (h : k' ≠ k) : lookupProp (setKey ps k v) k' = lookupProp ps k' := by
  induction ps with
  | nil => simp [lookupProp, setKey]
  | cons p rest ih =>
    obtain ⟨k'', w⟩ := p
    by_cases hk : k'' = k
    · subst hk
      have hne : ¬(k'' = k') := fun hh => h hh.symm
      simp [lookupProp, setKey, hne]
    · by_cases hk2 : k'' = k'
      · subst hk2
        simp [lookupProp, setKey, hk]
      · simp only [lookupProp, setKey, if_neg hk, if_neg hk2]
        exact ih

theorem setKey_eq_of_lookup {ps : Props} {k : String} {v : Value}
    (h : lookupProp ps k = some v) : setKey ps k v = ps := by
  induction ps with
  | nil => rfl
  | cons p rest ih =>
    obtain ⟨k', w⟩ := p
    by_cases hk : k' = k
    · subst hk
      simp [lookupProp] at h
      simp [setKey, h]
    · simp only [lookupProp, if_neg hk] at h
      simp [setKey, hk, ih h]

theorem setKey_map_fst (ps : Props) (k : String) (v : Value) :
    (setKey ps k v).map Prod.fst = ps.map Prod.fst := by
  induction ps with
  | nil => rfl
  | cons p rest ih =>
    obtain ⟨k', w⟩ := p
    by_cases hk : k' = k
    · simp [setKey, hk]
    · simp [setKey, hk, ih]

/-! ### Unfolding lemmas for the conversion functions -/

theorem convertProperties_nil (parser : DateParser) (ps : Props) :
    convertProperties parser ps [] = (ps, none) := by
  rw [convertProperties]

theorem convertProperties_cons_absent {ps : Props} {prop : String}
    (parser : DateParser) (sp : SchemaProp) (rest : Schema)
    (h : lookupProp ps prop = none) :
    convertProperties parser ps ((prop, sp) :: rest) = convertProperties parser ps rest := by
  rw [convertProperties, h]

theorem convertProperties_cons_err {parser : DateParser} {ps : Props} {prop : String}
    {v v' : Value} {sp : SchemaProp} {e : PyErr} (rest : Schema)
    (h : lookupProp ps prop = some v)
    (hf : convertField parser v sp = (v', some e)) :
    convertProperties parser ps ((prop, sp) :: rest) = (setKey ps prop v', some e) := by
  rw [convertProperties, h]
  simp only [hf]

theorem convertProperties_cons_ok {parser : DateParser} {ps : Props} {prop : String}
    {v v' : Value} {sp : SchemaProp} (rest : Schema)
    (h : lookupProp ps prop = some v)
    (hf : convertField parser v sp = (v', none)) :
    convertProperties parser ps ((prop, sp) :: rest)
      = convertProperties parser (setKey ps prop v') rest := by
  rw [convertProperties, h]
  simp only [hf]

theorem convertElements_nil (parser : DateParser) (isch : SchemaProp) :
    convertElements parser [] isch = ([], none) := by
  rw [convertElements.eq_def]

theorem dictTryResult_ok (parser : DateParser) (entries' : Props)
    (vr vs : Option SchemaProp) :
    dictTryResult parser (entries', none) vr vs = (.vDict entries', none) := by
  rw [dictTryResult.eq_def]

theorem dictTryResult_keyError (parser : DateParser) (entries' : Props)
    (vr vs : Option SchemaProp) :
    dictTryResult parser (entries', some .keyError) vr vs
      = dictFallback parser (.vDict entries') vr vs := by
  rw [dictTryResult.eq_def]

theorem dictTryResult_err {e : PyErr} (parser : DateParser) (entries' : Props)
    (vr vs : Option SchemaProp) (he : e ≠ .keyError) :
    dictTryResult parser (entries', some e) vr vs = (.vDict entries', some e) := by
  rw [dictTryResult.eq_def]
  cases e
  · exact absurd rfl he
  all_goals rfl

theorem convertField_dict_sub_ok {parser : DateParser} {entries entries' : List (String × Value)}
    {sub : Schema} (si vr vs : Option SchemaProp)
    (h : convertProperties parser entries sub = (entries', none)) :
    convertField parser (.vDict entries) (.mk "dict" (some sub) si vr vs)
      = (.vDict entries', none) := by
  rw [convertField.eq_def]
  simp only [h, reduceIte]
  exact dictTryResult_ok parser entries' vr vs

theorem convertField_dict_sub_keyError {parser : DateParser}
    {entries entries' : List (String × Value)} {sub : Schema} (si vr vs : Option SchemaProp)
    (h : convertProperties parser entries sub = (entries', some .keyError)) :
    convertField parser (.vDict entries) (.mk "dict" (some sub) si vr vs)
      = dictFallback parser (.vDict entries') vr vs := by
  rw [convertField.eq_def]
  simp only [h, reduceIte]
  exact dictTryResult_keyError parser entries' vr vs

theorem convertField_dict_sub_err {parser : DateParser}
    {entries entries' : List (String × Value)} {sub : Schema} {e : PyErr}
    (si vr vs : Option SchemaProp)
    (h : convertProperties parser entries sub = (entries', some e)) (he : e ≠ .keyError) :
    convertField parser (.vDict entries) (.mk "dict" (some sub) si vr vs)
      = (.vDict entries', some e) := by
  rw [convertField.eq_def]
  simp only [h, reduceIte]
  exact dictTryResult_err parser entries' vr vs he

theorem convertField_dict_nondict {parser : DateParser} {v : Value}
    (sub : Schema) (si vr vs : Option SchemaProp) (h : v.isDict = false) :
    convertField parser v (.mk "dict" (some sub) si vr vs) = (v, some .typeError) := by
  rw [convertField.eq_def]
  cases v <;> simp_all [Value.isDict]

theorem convertField_dict_nosub {parser : DateParser} {v : Value}
    (si vr vs : Option SchemaProp) :
    convertField parser v (.mk "dict" none si vr vs) = dictFallback parser v vr vs := by
  rw [convertField.eq_def]
  simp

theorem convertField_list_sentinel {parser : DateParser} {v : Value}
    (sm : Option Schema) (si vr vs : Option SchemaProp) (h : isEmptySentinel v = true) :
    convertField parser v (.mk "list" sm si vr vs) = (.vList [], none) := by
  rw [convertField.eq_def]
  simp [h]

theorem convertField_list_nosub {parser : DateParser} {v : Value}
    (sm : Option Schema) (vr vs : Option SchemaProp) (h : isEmptySentinel v = false) :
    convertField parser v (.mk "list" sm none vr vs) = (v, none) := by
  rw [convertField.eq_def]
  simp [h]

theorem convertField_list_elems {parser : DateParser} {elems : List Value}
    (sm : Option Schema) (isch : SchemaProp) (vr vs : Option SchemaProp) :
    convertField parser (.vList elems) (.mk "list" sm (some isch) vr vs)
      = (.vList (convertElements parser elems isch).1, (convertElements parser elems isch).2) := by
  rw [convertField.eq_def]
  simp [isEmptySentinel]

theorem convertField_list_notlist {parser : DateParser} {v : Value}
    (sm : Option Schema) (isch : SchemaProp) (vr vs : Option SchemaProp)
    (h1 : isEmptySentinel v = false) (h2 : v.isList = false) :
    convertField parser v (.mk "list" sm (some isch) vr vs) = (v, some .typeError) := by
  rw [convertField.eq_def]
  cases v <;> simp_all [Value.isList]

theorem convertField_datetime_ok {parser : DateParser} {s : String} {dt : PyDatetime}
    (sm : Option Schema) (si vr vs : Option SchemaProp) (h : parser s = some dt) :
    convertField parser (.vStr s) (.mk "datetime" sm si vr vs)
      = (.vDatetime { dt with tzinfo := some () }, none) := by
  rw [convertField.eq_def]
  simp [h]

theorem convertField_datetime_fail {parser : DateParser} {s : String}
    (sm : Option Schema) (si vr vs : Option SchemaProp) (h : parser s = none) :
    convertField parser (.vStr s) (.mk "datetime" sm si vr vs)
      = (.vStr s, some .parseError) := by
  rw [convertField.eq_def]
  simp [h]

theorem convertField_datetime_nonstr {parser : DateParser} {v : Value}
    (sm : Option Schema) (si vr vs : Option SchemaProp) (h : v.isStr = false) :
    convertField parser v (.mk "datetime" sm si vr vs) = (v, some .typeError) := by
  rw [convertField.eq_def]
  cases v <;> simp_all [Value.isStr]

theorem convertField_objectid_falsy {parser : DateParser} {v : Value}
    (sm : Option Schema) (si vr vs : Option SchemaProp) (h : truthy v = false) :
    convertField parser v (.mk "objectid" sm si vr vs) = (.vNone, none) := by
  rw [convertField.eq_def]
  simp [h]

theorem string_not_empty_of_isHex24 {s : String} (h : isHex24 s = true) :
    s.isEmpty = false := by
  rcases hs : s.isEmpty with _ | _
  · rfl
  · have hse : s = "" := (String.isEmpty_iff s).mp hs
    subst hse
    simp [isHex24] at h

theorem convertField_objectid_hex {parser : DateParser} {s : String}
    (sm : Option Schema) (si vr vs : Option SchemaProp) (h : isHex24 s = true) :
    convertField parser (.vStr s) (.mk "objectid" sm si vr vs) = (.vObjectId s, none) := by
  rw [convertField.eq_def]
  simp [truthy, string_not_empty_of_isHex24 h, h]

theorem convertField_objectid_badstr {parser : DateParser} {s : String}
    (sm : Option Schema) (si vr vs : Option SchemaProp)
    (h : isHex24 s = false) (ht : s.isEmpty = false) :
    convertField parser (.vStr s) (.mk "objectid" sm si vr vs)
      = (.vStr s, some .invalidId) := by
  rw [convertField.eq_def]
  simp [truthy, ht, h]

theorem convertField_objectid_oid {parser : DateParser} (oid : String)
    (sm : Option Schema) (si vr vs : Option SchemaProp) :
    convertField parser (.vObjectId oid) (.mk "objectid" sm si vr vs)
      = (.vObjectId oid, none) := by
  rw [convertField.eq_def]
  simp [truthy]

theorem convertField_objectid_other {parser : DateParser} {v : Value}
    (sm : Option Schema) (si vr vs : Option SchemaProp)
    (ht : truthy v = true) (h1 : v.isStr = false) (h2 : v.isObjectId = false) :
    convertField parser v (.mk "objectid" sm si vr vs) = (v, some .invalidId) := by
  rw [convertField.eq_def]
  cases v <;> simp_all [Value.isStr, Value.isObjectId, truthy]

theorem convertField_other {parser : DateParser} {v : Value} {t : String}
    (sm : Option Schema) (si vr vs : Option SchemaProp)
    (h1 : t ≠ "dict") (h2 : t ≠ "list") (h3 : t ≠ "datetime") (h4 : t ≠ "objectid") :
    convertField parser v (.mk t sm si vr vs) = (v, none) := by
  rw [convertField.eq_def]
  simp only []
  rw [if_neg h1, if_neg h2, if_neg h3, if_neg h4]

theorem dictFallback_none (parser : DateParser) (v : Value) :
    dictFallback parser v none none = (v, some .keyError) := by
  rw [dictFallback.eq_def]

theorem dictFallback_vr (parser : DateParser) (entries : List (String × Value))
    (dvs : SchemaProp) (vs : Option SchemaProp) :
    dictFallback parser (.vDict entries) (some dvs) vs
      = (.vDict (convertDictValues parser entries dvs).1,
         (convertDictValues parser entries dvs).2) := by
  rw [dictFallback.eq_def]

theorem dictFallback_vs (parser : DateParser) (entries : List (String × Value))
    (dvs : SchemaProp) :
    dictFallback parser (.vDict entries) none (some dvs)
      = (.vDict (convertDictValues parser entries dvs).1,
         (convertDictValues parser entries dvs).2) := by
  rw [dictFallback.eq_def]

theorem dictFallback_vr_nondict {v : Value} (parser : DateParser)
    (dvs : SchemaProp) (vs : Option SchemaProp) (h : v.isDict = false) :
    dictFallback parser v (some dvs) vs = (v, some .assertionError) := by
  rw [dictFallback.eq_def]
  cases v <;> simp_all [Value.isDict]

theorem dictFallback_vs_nondict {v : Value} (parser : DateParser)
    (dvs : SchemaProp) (h : v.isDict = false) :
    dictFallback parser v none (some dvs) = (v, some .assertionError) := by
  rw [dictFallback.eq_def]
  cases v <;> simp_all [Value.isDict]

theorem convertDictValues_badtype {dvs : SchemaProp} (parser : DateParser)
    (entries : List (String × Value)) (h : dvs.ptype ≠ "dict") :
    convertDictValues parser entries dvs = (entries, some .assertionError) := by
  rw [convertDictValues.eq_def]
  simp [h]

theorem convertDictValues_nil {dvs : SchemaProp} (parser : DateParser)
    (h : dvs.ptype = "dict") : convertDictValues parser [] dvs = ([], none) := by
  rw [convertDictValues.eq_def]
  simp [h]

theorem convertDictValues_cons_err {parser : DateParser} {dvs : SchemaProp}
    {val v' : Value} {e : PyErr} (k : String) (rest : List (String × Value))
    (h : dvs.ptype = "dict") (hf : convertField parser val dvs = (v', some e)) :
    convertDictValues parser ((k, val) :: rest) dvs = ((k, v') :: rest, some e) := by
  rw [convertDictValues.eq_def]
  simp [h, hf]

theorem convertDictValues_cons_ok {parser : DateParser} {dvs : SchemaProp}
    {val v' : Value} (k : String) (rest : List (String × Value))
    (h : dvs.ptype = "dict") (hf : convertField parser val dvs = (v', none)) :
    convertDictValues parser ((k, val) :: rest) dvs
      = ((k, v') :: (convertDictValues parser rest dvs).1,
         (convertDictValues parser rest dvs).2) := by
  rw [convertDictValues.eq_def]
  simp [h, hf]

theorem convertElements_cons_err {parser : DateParser} {e e' : Value}
    {isch : SchemaProp} {err : PyErr} (rest : List Value)
    (hf : convertField parser e isch = (e', some err)) :
    convertElements parser (e :: rest) isch = (e' :: rest, some err) := by
  rw [convertElements.eq_def]
  simp [hf]

theorem convertElements_cons_ok {parser : DateParser} {e e' : Value}
    {isch : SchemaProp} (rest : List Value)
    (hf : convertField parser e isch = (e', none)) :
    convertElements parser (e :: rest) isch
      = (e' :: (convertElements parser rest isch).1,
         (convertElements parser rest isch).2) := by
  rw [convertElements.eq_def]
  simp [hf]

/-! ### Lemmas about the organization layer -/

theorem aggregateOrgRoles_nil (uid : String) : aggregateOrgRoles [] uid = ∅ := rfl

theorem aggregateOrgRoles_cons (o : Organization) (rest : List Organization) (uid : String) :
    aggregateOrgRoles (o :: rest) uid
      = if uid ∈ o.members then o.org_roles ∪ aggregateOrgRoles rest uid
        else aggregateOrgRoles rest uid := rfl

theorem mem_aggregateOrgRoles {orgs : List Organization} {uid r : String} :
    r ∈ aggregateOrgRoles orgs uid ↔ ∃ o ∈ orgs, uid ∈ o.members ∧ r ∈ o.org_roles := by
  induction orgs with
  | nil => simp [aggregateOrgRoles_nil]
  | cons o rest ih =>
    rw [aggregateOrgRoles_cons]
    by_cases h : uid ∈ o.members
    · simp [h, ih]
    · simp [h, ih]

theorem refresh_roles_eq {db : List UserDoc} {uid : String} {u : UserDoc}
    (orgs : List Organization) (h : findUserById db uid = some u) :
    refresh_roles orgs db uid = some (
      (if aggregateOrgRoles orgs uid \ u.roles.toFinset ≠ ∅ then
        [⟨"grant", aggregateOrgRoles orgs uid \ u.roles.toFinset, uid⟩] else []) ++
      (if (u.roles.toFinset.filter fun role => pyStartsWith role "org-")
            \ aggregateOrgRoles orgs uid ≠ ∅ then
        [⟨"revoke", (u.roles.toFinset.filter fun role => pyStartsWith role "org-")
            \ aggregateOrgRoles orgs uid, uid⟩] else [])) := by
  unfold refresh_roles
  rw [h]

theorem grantedRoles_mk (gs rs : Finset String) (uid : String) :
    grantedRoles ((if gs ≠ ∅ then [⟨"grant", gs, uid⟩] else [])
        ++ (if rs ≠ ∅ then [⟨"revoke", rs, uid⟩] else [])) = gs := by
  by_cases h1 : gs = ∅ <;> by_cases h2 : rs = ∅ <;>
    simp [grantedRoles, h1, h2]

theorem revokedRoles_mk (gs rs : Finset String) (uid : String) :
    revokedRoles ((if gs ≠ ∅ then [⟨"grant", gs, uid⟩] else [])
        ++ (if rs ≠ ∅ then [⟨"revoke", rs, uid⟩] else [])) = rs := by
  by_cases h1 : gs = ∅ <;> by_cases h2 : rs = ∅ <;>
    simp [revokedRoles, h1, h2]

theorem badger_filter_grant_len (gs rs : Finset String) (uid : String) :
    (((if gs ≠ ∅ then [(⟨"grant", gs, uid⟩ : BadgerCall)] else [])
        ++ (if rs ≠ ∅ then [(⟨"revoke", rs, uid⟩ : BadgerCall)] else [])).filter
      (fun c : BadgerCall => c.action = "grant")).length ≤ 1 := by
  by_cases h1 : gs = ∅ <;> by_cases h2 : rs = ∅ <;> simp [h1, h2, List.filter]

theorem badger_filter_revoke_len (gs rs : Finset String) (uid : String) :
    (((if gs ≠ ∅ then [(⟨"grant", gs, uid⟩ : BadgerCall)] else [])
        ++ (if rs ≠ ∅ then [(⟨"revoke", rs, uid⟩ : BadgerCall)] else [])).filter
      (fun c : BadgerCall => c.action = "revoke")).length ≤ 1 := by
  by_cases h1 : gs = ∅ <;> by_cases h2 : rs = ∅ <;> simp [h1, h2, List.filter]

theorem badger_calls_uid (gs rs : Finset String) (uid : String) :
    ∀ c ∈ ((if gs ≠ ∅ then [(⟨"grant", gs, uid⟩ : BadgerCall)] else [])
        ++ (if rs ≠ ∅ then [(⟨"revoke", rs, uid⟩ : BadgerCall)] else [])), c.user_id = uid := by
  intro c hc
  by_cases h1 : gs = ∅ <;> by_cases h2 : rs = ∅ <;> simp [h1, h2] at hc
  all_goals first
    | (rcases hc with hc | hc <;> simp [hc])
    | simp [hc]

/-! ### Claim C1: seat check in `assign_users` -/

/-- C1: for every organization and email list, `assign_users` raises
`NotEnoughSeats (org_id, current seat_count, attempted seat count)` exactly when
the size of the union of existing and newly resolved members plus the size of
the union of existing and newly unresolved emails exceeds `seat_count`, leaving
the stored organization unchanged; when that total is at most `seat_count`
(including equality) it succeeds and persists the updated sets. -/
theorem assign_users_seat_check (db : List UserDoc) (org : Organization)
    (emails : List String) :
    let existing_user_docs := db.filter fun u => emails.contains u.email
    let members := org.members ∪ (existing_user_docs.map fun u => u.uid).toFinset
    let unknown_members := org.unknown_members ∪
        (emails.toFinset \ (existing_user_docs.map fun u => u.email).toFinset)
    let attempted : Int := (members.card + unknown_members.card : Nat)
    (attempted > org.seat_count →
      assign_users db org emails = .error ⟨org.org_id, org.seat_count, attempted⟩ ∧
      assignUsersState db org emails = org) ∧
    (attempted ≤ org.seat_count →
      assign_users db org emails
        = .ok { org with members := members, unknown_members := unknown_members } ∧
      assignUsersState db org emails
        = { org with members := members, unknown_members := unknown_members }) := by
  intro existing_user_docs members unknown_members attempted
  have key : assign_users db org emails
      = if attempted > org.seat_count
        then .error ⟨org.org_id, org.seat_count, attempted⟩
        else .ok { org with members := members, unknown_members := unknown_members } := rfl
  constructor
  · intro h
    have h1 : assign_users db org emails
        = .error ⟨org.org_id, org.seat_count, attempted⟩ := by rw [key, if_pos h]
    refine ⟨h1, ?_⟩
    unfold assignUsersState
    rw [h1]
  · intro h
    have hne : ¬ attempted > org.seat_count := not_lt.mpr h
    have h1 : assign_users db org emails
        = .ok { org with members := members, unknown_members := unknown_members } := by
      rw [key, if_neg hne]
    refine ⟨h1, ?_⟩
    unfold assignUsersState
    rw [h1]

/-- Witness for C1 at the spec's example: a 2-seat organization with no members
given three unknown emails fails with `seat_count=2, attempted=3` and is left
unchanged; given two emails it succeeds with the two unknown members stored. -/
theorem assign_users_seat_check_witness :
    assign_users [] ⟨"org1", 2, ∅, ∅, ∅⟩ ["a@x.org", "b@x.org", "c@x.org"]
      = .error ⟨"org1", 2, 3⟩ ∧
    assignUsersState [] ⟨"org1", 2, ∅, ∅, ∅⟩ ["a@x.org", "b@x.org", "c@x.org"]
      = ⟨"org1", 2, ∅, ∅, ∅⟩ ∧
    assign_users [] ⟨"org1", 2, ∅, ∅, ∅⟩ ["a@x.org", "b@x.org"]
      = .ok ⟨"org1", 2, ∅, {"a@x.org", "b@x.org"}, ∅⟩ := by
  obtain ⟨h1, h2⟩ :=
    (assign_users_seat_check [] ⟨"org1", 2, ∅, ∅, ∅⟩ ["a@x.org", "b@x.org", "c@x.org"]).1
      (by decide)
  obtain ⟨h3, -⟩ :=
    (assign_users_seat_check [] ⟨"org1", 2, ∅, ∅, ∅⟩ ["a@x.org", "b@x.org"]).2
      (by decide)
  refine ⟨?_, h2, ?_⟩
  · rw [h1]; simp only [Except.error.injEq]; decide
  · rw [h3]; simp only [Except.ok.injEq]; decide

/-! ### Claim C2: `refresh_roles` grant/revoke diffing -/

/-- C2: `refresh_roles` aggregates the union of `org_roles` over the
organizations containing the user, grants exactly the aggregated roles the user
does not hold, revokes exactly the user's current `org-`-prefixed roles absent
from the aggregate, and issues grant and revoke each as at most one batch call
to the role-management collaborator, every call targeting that user. -/
theorem refresh_roles_correct (orgs : List Organization) (db : List UserDoc)
    (uid : String) (u : UserDoc) (h : findUserById db uid = some u) :
    ∃ calls, refresh_roles orgs db uid = some calls ∧
      grantedRoles calls = aggregateOrgRoles orgs uid \ u.roles.toFinset ∧
      revokedRoles calls
        = (u.roles.toFinset.filter fun role => pyStartsWith role "org-")
            \ aggregateOrgRoles orgs uid ∧
      (∀ r, r ∈ aggregateOrgRoles orgs uid
          ↔ ∃ o ∈ orgs, uid ∈ o.members ∧ r ∈ o.org_roles) ∧
      (calls.filter (fun c : BadgerCall => c.action = "grant")).length ≤ 1 ∧
      (calls.filter (fun c : BadgerCall => c.action = "revoke")).length ≤ 1 ∧
      ∀ c ∈ calls, c.user_id = uid :=
  ⟨_, refresh_roles_eq orgs h, grantedRoles_mk _ _ _, revokedRoles_mk _ _ _,
    fun _ => mem_aggregateOrgRoles, badger_filter_grant_len _ _ _,
    badger_filter_revoke_len _ _ _, badger_calls_uid _ _ _⟩

/-- Witness for C2 at the spec's example: a user in two organizations with
`org_roles` `{org-A, org-B}` and `{org-B, org-C}`, currently holding
`{org-A, org-D}`, is granted `{org-B, org-C}` and revoked `{org-D}`. -/
theorem refresh_roles_correct_witness :
    ∃ calls,
      refresh_roles
        [⟨"o1", 10, {"u1"}, ∅, {"org-A", "org-B"}⟩,
         ⟨"o2", 10, {"u1"}, ∅, {"org-B", "org-C"}⟩]
        [⟨"u1", "u@x.org", ["org-A", "org-D"]⟩] "u1" = some calls ∧
      grantedRoles calls = {"org-B", "org-C"} ∧ revokedRoles calls = {"org-D"} := by
  obtain ⟨calls, hc, hg, hr, -⟩ :=
    refresh_roles_correct
      [⟨"o1", 10, {"u1"}, ∅, {"org-A", "org-B"}⟩,
       ⟨"o2", 10, {"u1"}, ∅, {"org-B", "org-C"}⟩]
      [⟨"u1", "u@x.org", ["org-A", "org-D"]⟩] "u1"
      ⟨"u1", "u@x.org", ["org-A", "org-D"]⟩ (by decide)
  exact ⟨calls, hc, by rw [hg]; decide, by rw [hr]; decide⟩

/-! ### Claim C9: identifier resolution in `remove_user` -/

/-- C9: `remove_user` accepts either a user id or an email and resolves the
missing identifier by lookup when possible: removal by id of a known user also
erases that user's email from `unknown_members`, removal by the email of a
known user also erases that user's id from `members`; the updated organization
document is persisted, and a role refresh is triggered exactly when a user id
is known. -/
theorem remove_user_resolution (db : List UserDoc) (org : Organization) :
    (∀ uid u, findUserById db uid = some u → u.email.isEmpty = false →
      remove_user db org (some uid) none
        = some ({ org with
                    members := org.members.erase uid,
                    unknown_members := org.unknown_members.erase u.email }, some uid)) ∧
    (∀ e u, e.isEmpty = false → findUserByEmail db e = some u →
      remove_user db org none (some e)
        = some ({ org with
                    members := org.members.erase u.uid,
                    unknown_members := org.unknown_members.erase e }, some u.uid)) ∧
    (∀ uid_arg email_arg res, remove_user db org uid_arg email_arg = some res →
      (res.2.isSome ↔ uid_arg.isSome ∨
        ∃ e, email_arg = some e ∧ (findUserByEmail db e).isSome)) := by
  refine ⟨?_, ?_, ?_⟩
  · intro uid u h hne
    simp [remove_user, h, hne]
  · intro e u hne h
    simp [remove_user, h, hne]
  · intro uid_arg email_arg res hres
    obtain ⟨org', tgt⟩ := res
    cases uid_arg with
    | some uid =>
      cases email_arg with
      | none =>
        cases hu : findUserById db uid with
        | none =>
          simp [remove_user, hu] at hres
          obtain ⟨-, h2⟩ := hres
          subst h2
          simp
        | some u =>
          simp [remove_user, hu] at hres
          obtain ⟨-, h2⟩ := hres
          subst h2
          simp
      | some e =>
        by_cases he : e.isEmpty
        · simp [remove_user, he] at hres
          obtain ⟨-, h2⟩ := hres
          subst h2
          simp
        · simp [remove_user, he] at hres
          obtain ⟨-, h2⟩ := hres
          subst h2
          simp
    | none =>
      cases email_arg with
      | none => simp [remove_user] at hres
      | some e =>
        by_cases he : e.isEmpty
        · simp [remove_user, he] at hres
        · cases hlook : findUserByEmail db e with
          | none =>
            simp [remove_user, he, hlook] at hres
            obtain ⟨-, h2⟩ := hres
            subst h2
            simp [hlook]
          | some u =>
            simp [remove_user, he, hlook] at hres
            obtain ⟨-, h2⟩ := hres
            subst h2
            simp [hlook]

/-- Witness for C9: a user known as `u1` with email `a@x.org`; removing by id
erases both the id and the stale email, removing by email likewise, and both
trigger a role refresh for `u1`. -/
theorem remove_user_resolution_witness :
    remove_user [⟨"u1", "a@x.org", []⟩]
        ⟨"org1", 5, {"u1", "u2"}, {"a@x.org", "b@x.org"}, ∅⟩ (some "u1") none
      = some (⟨"org1", 5, {"u2"}, {"b@x.org"}, ∅⟩, some "u1") ∧
    remove_user [⟨"u1", "a@x.org", []⟩]
        ⟨"org1", 5, {"u1", "u2"}, {"a@x.org", "b@x.org"}, ∅⟩ none (some "a@x.org")
      = some (⟨"org1", 5, {"u2"}, {"b@x.org"}, ∅⟩, some "u1") := by
  obtain ⟨hbyid, hbyemail, -⟩ :=
    remove_user_resolution [⟨"u1", "a@x.org", []⟩]
      ⟨"org1", 5, {"u1", "u2"}, {"a@x.org", "b@x.org"}, ∅⟩
  constructor
  · rw [hbyid "u1" ⟨"u1", "a@x.org", []⟩ (by decide) (by decide)]; decide
  · rw [hbyemail "a@x.org" ⟨"u1", "a@x.org", []⟩ (by decide) (by decide)]; decide

/-! ### Claim C10: revoke restricted to the `org-` prefix, grant unrestricted -/

/-- C10: the revoke set of `refresh_roles` is always a subset of the user's
current roles that start with `org-` — a role without that prefix is never
revoked, even when absent from the aggregated organization roles — while the
grant set is not restricted to the prefix: any aggregated role the user does
not hold is granted, prefix or not. -/
theorem refresh_roles_revoke_scope (orgs : List Organization) (db : List UserDoc)
    (uid : String) (u : UserDoc) (calls : List BadgerCall)
    (h : findUserById db uid = some u) (hc : refresh_roles orgs db uid = some calls) :
    (∀ r ∈ revokedRoles calls, pyStartsWith r "org-" = true ∧ r ∈ u.roles) ∧
    (∀ r, pyStartsWith r "org-" = false → r ∉ revokedRoles calls) ∧
    (∀ r, r ∈ aggregateOrgRoles orgs uid → r ∉ u.roles → r ∈ grantedRoles calls) := by
  rw [refresh_roles_eq orgs h] at hc
  injection hc with hc
  subst hc
  refine ⟨?_, ?_, ?_⟩
  · intro r hr
    rw [revokedRoles_mk, Finset.mem_sdiff, Finset.mem_filter] at hr
    exact ⟨hr.1.2, List.mem_toFinset.mp hr.1.1⟩
  · intro r hpre hr
    rw [revokedRoles_mk, Finset.mem_sdiff, Finset.mem_filter] at hr
    rw [hr.1.2] at hpre
    exact absurd hpre (by decide)
  · intro r hagg hroles
    rw [grantedRoles_mk, Finset.mem_sdiff]
    exact ⟨hagg, fun hmem => hroles (List.mem_toFinset.mp hmem)⟩

/-- Witness for C10: the non-prefixed role `staff` from an organization is
granted to `u1` while the non-prefixed held role `admin` is never revoked;
only the prefixed `org-X` is revoked. -/
theorem refresh_roles_revoke_scope_witness :
    "staff" ∈ grantedRoles
      [(⟨"grant", {"staff"}, "u1"⟩ : BadgerCall), ⟨"revoke", {"org-X"}, "u1"⟩] ∧
    "admin" ∉ revokedRoles
      [(⟨"grant", {"staff"}, "u1"⟩ : BadgerCall), ⟨"revoke", {"org-X"}, "u1"⟩] ∧
    ∀ r ∈ revokedRoles
      [(⟨"grant", {"staff"}, "u1"⟩ : BadgerCall), ⟨"revoke", {"org-X"}, "u1"⟩],
      pyStartsWith r "org-" = true ∧ r ∈ ["org-X", "admin"] := by
  obtain ⟨h1, h2, h3⟩ :=
    refresh_roles_revoke_scope [⟨"o1", 10, {"u1"}, ∅, {"staff"}⟩]
      [⟨"u1", "u@x.org", ["org-X", "admin"]⟩] "u1"
      ⟨"u1", "u@x.org", ["org-X", "admin"]⟩
      [⟨"grant", {"staff"}, "u1"⟩, ⟨"revoke", {"org-X"}, "u1"⟩]
      (by decide) (by decide)
  exact ⟨h3 "staff" (by decide) (by decide), h2 "admin" (by decide), h1⟩

/-! ### Further helper lemmas for the coercion layer -/

theorem convertElements_all_ok {parser : DateParser} {isch : SchemaProp} (elems : List Value)
    (h : ∀ e ∈ elems, (convertField parser e isch).2 = none) :
    convertElements parser elems isch
      = (elems.map fun e => (convertField parser e isch).1, none) := by
  induction elems with
  | nil => simp [convertElements_nil]
  | cons e rest ih =>
    have hf : convertField parser e isch = ((convertField parser e isch).1, none) := by
      rw [← h e (List.mem_cons_self e rest)]
    rw [convertElements_cons_ok rest hf, ih fun x hx => h x (List.mem_cons_of_mem e hx)]
    simp

/-- The singleton round trip used by the `'list'` branch and by
`convert_dict_values`: converting `{'item': v}` against `{'item': isch}` and
projecting `'item'` is exactly the per-field conversion. -/
theorem convertProperties_singleton (parser : DateParser) (v : Value) (isch : SchemaProp) :
    convertProperties parser [("item", v)] [("item", isch)]
      = ([("item", (convertField parser v isch).1)], (convertField parser v isch).2) := by
  cases hf : convertField parser v isch with
  | mk v' e? =>
    cases e? with
    | none =>
      rw [convertProperties_cons_ok [] (by simp [lookupProp]) hf, convertProperties_nil]
      simp [setKey]
    | some e =>
      rw [convertProperties_cons_err [] (by simp [lookupProp]) hf]
      simp [setKey]

/-! ### Claim C5: unknown project / unknown node type -/

/-- C5: when the node's project cannot be found, validation fails with the
field error `Unknown project`; when the project is found but the node's
`node_type` is not among its node types, it fails with `Unknown node type`;
both are reported through the field-error channel with return value `False`,
and the entry point is a total function — no exception reaches the caller. -/
theorem validate_unknown_project_or_node_type
    (lookupProject : String → Option ProjectDoc)
    (validate : Schema → Props → Bool × Props) (parser : DateParser)
    (doc : NodeDoc) (field : String) (value : Props) :
    (lookupProject doc.project = none →
      validateValidProperties lookupProject validate parser doc field value
        = { errors := [(field, "Unknown project")], retval := some false,
            validated := value, validatorRan := false, document_field := none }) ∧
    (∀ project, lookupProject doc.project = some project →
      project_get_node_type project doc.node_type = none →
      validateValidProperties lookupProject validate parser doc field value
        = { errors := [(field, "Unknown node type")], retval := some false,
            validated := value, validatorRan := false, document_field := none }) := by
  constructor
  · intro h
    simp [validateValidProperties, h]
  · intro project h1 h2
    simp [validateValidProperties, h1, h2]

/-- Witness for C5: a lookup that knows no project yields `Unknown project`;
a project without the node's type yields `Unknown node type`. -/
theorem validate_unknown_project_or_node_type_witness :
    validateValidProperties (fun _ => none) (fun _ p => (true, p)) strptimeIso
        ⟨"p1", "t1"⟩ "properties" []
      = { errors := [("properties", "Unknown project")], retval := some false,
          validated := [], validatorRan := false, document_field := none } ∧
    validateValidProperties (fun _ => some ⟨[]⟩) (fun _ p => (true, p)) strptimeIso
        ⟨"p1", "t1"⟩ "properties" []
      = { errors := [("properties", "Unknown node type")], retval := some false,
          validated := [], validatorRan := false, document_field := none } := by
  constructor
  · exact (validate_unknown_project_or_node_type (fun _ => none) (fun _ p => (true, p))
      strptimeIso ⟨"p1", "t1"⟩ "properties" []).1 rfl
  · exact (validate_unknown_project_or_node_type (fun _ => some ⟨[]⟩) (fun _ p => (true, p))
      strptimeIso ⟨"p1", "t1"⟩ "properties" []).2 ⟨[]⟩ rfl rfl

/-! ### Claim C4: coercion exceptions do not abort validation -/

/-- C4: once the project and node type are resolved, the outcome of
`_validate_valid_properties` is determined solely by the structural validator's
verdict on the (possibly partly coerced) mapping: the `try/except` swallows any
coercion exception, the validator always runs on the mapping as coerced so far,
and the caller sees the validator's field errors rather than the coercion
exception. -/
theorem validate_coercion_error_not_fatal
    (lookupProject : String → Option ProjectDoc)
    (validate : Schema → Props → Bool × Props) (parser : DateParser)
    (doc : NodeDoc) (field : String) (value : Props)
    (project : ProjectDoc) (node_type : NodeType)
    (h1 : lookupProject doc.project = some project)
    (h2 : project_get_node_type project doc.node_type = some node_type) :
    validateValidProperties lookupProject validate parser doc field value
      = (if (validate node_type.dyn_schema
              (convertProperties parser value node_type.dyn_schema).1).1 then
          { errors := [], retval := some true,
            validated := (convertProperties parser value node_type.dyn_schema).1,
            validatorRan := true,
            document_field := some (validate node_type.dyn_schema
              (convertProperties parser value node_type.dyn_schema).1).2 }
         else
          { errors := [(field, "Error validating properties")], retval := none,
            validated := (convertProperties parser value node_type.dyn_schema).1,
            validatorRan := true, document_field := none }) := by
  simp only [validateValidProperties, h1, h2]

/-- Witness for C4: a malformed date string makes the coercion raise a
`ValueError`, yet the validator still runs on the partly coerced mapping and
the caller sees the validator's error, not the parse exception. -/
theorem validate_coercion_error_not_fatal_witness :
    (convertProperties strptimeIso [("d", .vStr "malformed")]
        [("d", .mk "datetime" none none none none)]).2 = some PyErr.parseError ∧
    (validateValidProperties
        (fun _ => some ⟨[⟨"t1", [("d", .mk "datetime" none none none none)]⟩]⟩)
        (fun _ p => (false, p)) strptimeIso ⟨"p1", "t1"⟩ "properties"
        [("d", .vStr "malformed")]).validatorRan = true ∧
    (validateValidProperties
        (fun _ => some ⟨[⟨"t1", [("d", .mk "datetime" none none none none)]⟩]⟩)
        (fun _ p => (false, p)) strptimeIso ⟨"p1", "t1"⟩ "properties"
        [("d", .vStr "malformed")]).errors
      = [("properties", "Error validating properties")] := by
  have hkey := validate_coercion_error_not_fatal
    (fun _ => some ⟨[⟨"t1", [("d", .mk "datetime" none none none none)]⟩]⟩)
    (fun _ p => (false, p)) strptimeIso ⟨"p1", "t1"⟩ "properties"
    [("d", .vStr "malformed")]
    ⟨[⟨"t1", [("d", .mk "datetime" none none none none)]⟩]⟩
    ⟨"t1", [("d", .mk "datetime" none none none none)]⟩ rfl rfl
  refine ⟨?_, ?_, ?_⟩
  · rw [convertProperties_cons_err [] (by simp [lookupProp])
      (convertField_datetime_fail none none none none
        (show strptimeIso "malformed" = none from by decide))]
  · rw [hkey]; rfl
  · rw [hkey]; rfl

/-! ### Claim C6: datetime coercion -/

/-- C6: a `'datetime'`-typed property present in the mapping is parsed from its
string form with the configured date format and replaced by the parsed
timestamp made timezone-aware in UTC; a string the parser rejects raises a
parse error. Concretely, `'2020-01-01T00:00:00'` under `%Y-%m-%dT%H:%M:%S`
becomes the UTC timestamp 2020-01-01 00:00:00, and `'not-a-datetime'` fails. -/
theorem convert_datetime_spec (sm : Option Schema) (si vr vs : Option SchemaProp) :
    (∀ (parser : DateParser) (s : String) (dt : PyDatetime), parser s = some dt →
      convertField parser (.vStr s) (.mk "datetime" sm si vr vs)
        = (.vDatetime { dt with tzinfo := some () }, none)) ∧
    (∀ (parser : DateParser) (s : String), parser s = none →
      convertField parser (.vStr s) (.mk "datetime" sm si vr vs)
        = (.vStr s, some .parseError)) ∧
    convertProperties strptimeIso [("d", .vStr "2020-01-01T00:00:00")]
        [("d", .mk "datetime" sm si vr vs)]
      = ([("d", .vDatetime ⟨2020, 1, 1, 0, 0, 0, some ()⟩)], none) ∧
    strptimeIso "2020-01-01T00:00:00" = some ⟨2020, 1, 1, 0, 0, 0, none⟩ ∧
    strptimeIso "not-a-datetime" = none := by
  refine ⟨fun parser s dt h => convertField_datetime_ok sm si vr vs h,
          fun parser s h => convertField_datetime_fail sm si vr vs h, ?_,
          by decide, by decide⟩
  rw [convertProperties_cons_ok [] (by simp [lookupProp])
      (convertField_datetime_ok sm si vr vs (by decide :
        strptimeIso "2020-01-01T00:00:00" = some ⟨2020, 1, 1, 0, 0, 0, none⟩)),
    convertProperties_nil]
  simp [setKey]

/-- Witness for C6 at the spec's example dates. -/
theorem convert_datetime_spec_witness :
    convertField strptimeIso (.vStr "2020-01-01T00:00:00")
        (.mk "datetime" none none none none)
      = (.vDatetime ⟨2020, 1, 1, 0, 0, 0, some ()⟩, none) ∧
    convertField strptimeIso (.vStr "not-a-datetime")
        (.mk "datetime" none none none none)
      = (.vStr "not-a-datetime", some .parseError) := by
  obtain ⟨hok, hfail, -⟩ := convert_datetime_spec none none none none
  exact ⟨hok strptimeIso "2020-01-01T00:00:00" ⟨2020, 1, 1, 0, 0, 0, none⟩ (by decide),
         hfail strptimeIso "not-a-datetime" (by decide)⟩

/-! ### Claim C7: objectid coercion -/

/-- C7: an `'objectid'`-typed property holding a 24-hex-digit string is
replaced by the corresponding identifier object, and any falsy value (such as
the empty string) is replaced by `None` without error. Concretely,
`'507f1f77bcf86cd799439011'` becomes that identifier and `''` becomes `None`. -/
theorem convert_objectid_spec (sm : Option Schema) (si vr vs : Option SchemaProp) :
    (∀ (parser : DateParser) (s : String), isHex24 s = true →
      convertField parser (.vStr s) (.mk "objectid" sm si vr vs)
        = (.vObjectId s, none)) ∧
    (∀ (parser : DateParser) (v : Value), truthy v = false →
      convertField parser v (.mk "objectid" sm si vr vs) = (.vNone, none)) ∧
    convertProperties strptimeIso [("id", .vStr "507f1f77bcf86cd799439011")]
        [("id", .mk "objectid" sm si vr vs)]
      = ([("id", .vObjectId "507f1f77bcf86cd799439011")], none) ∧
    convertProperties strptimeIso [("id", .vStr "")] [("id", .mk "objectid" sm si vr vs)]
      = ([("id", .vNone)], none) := by
  refine ⟨fun parser s h => convertField_objectid_hex sm si vr vs h,
          fun parser v h => convertField_objectid_falsy sm si vr vs h, ?_, ?_⟩
  · rw [convertProperties_cons_ok [] (by simp [lookupProp])
        (convertField_objectid_hex sm si vr vs
          (show isHex24 "507f1f77bcf86cd799439011" = true from by decide)),
      convertProperties_nil]
    simp [setKey]
  · rw [convertProperties_cons_ok [] (by simp [lookupProp])
        (convertField_objectid_falsy sm si vr vs
          (show truthy (.vStr "") = false from by decide)),
      convertProperties_nil]
    simp [setKey]

/-- Witness for C7 at the spec's example identifiers. -/
theorem convert_objectid_spec_witness :
    convertField strptimeIso (.vStr "507f1f77bcf86cd799439011")
        (.mk "objectid" none none none none)
      = (.vObjectId "507f1f77bcf86cd799439011", none) ∧
    convertField strptimeIso (.vStr "") (.mk "objectid" none none none none)
      = (.vNone, none) := by
  obtain ⟨hhex, hfalsy, -⟩ := convert_objectid_spec none none none none
  exact ⟨hhex strptimeIso "507f1f77bcf86cd799439011" (by decide),
         hfalsy strptimeIso (.vStr "") (by decide)⟩

/-! ### Claim C8: list coercion -/

/-- C8: a `'list'`-typed property whose value is the `''` or `'[]'` sentinel is
normalized to the empty list; when an item schema is declared, each element is
converted individually by wrapping it in the singleton `{'item': ...}` mapping
and unwrapping the result — on a singleton that round trip is exactly the
per-field conversion, so a list of successfully converting elements maps to the
list of their conversions. -/
theorem convert_list_spec (sm : Option Schema) (vr vs : Option SchemaProp) :
    (∀ (parser : DateParser) (si : Option SchemaProp) (v : Value),
      isEmptySentinel v = true →
      convertField parser v (.mk "list" sm si vr vs) = (.vList [], none)) ∧
    (∀ (parser : DateParser) (v : Value) (isch : SchemaProp),
      convertProperties parser [("item", v)] [("item", isch)]
        = ([("item", (convertField parser v isch).1)], (convertField parser v isch).2)) ∧
    (∀ (parser : DateParser) (elems : List Value) (isch : SchemaProp),
      (∀ e ∈ elems, (convertField parser e isch).2 = none) →
      convertField parser (.vList elems) (.mk "list" sm (some isch) vr vs)
        = (.vList (elems.map fun e => (convertField parser e isch).1), none)) := by
  refine ⟨fun parser si v h => convertField_list_sentinel sm si vr vs h,
          fun parser v isch => convertProperties_singleton parser v isch,
          fun parser elems isch h => ?_⟩
  rw [convertField_list_elems sm isch vr vs, convertElements_all_ok elems h]

/-- Witness for C8: the sentinels normalize to the empty list, and a list of an
objectid string and an empty string under an objectid item schema converts
elementwise. -/
theorem convert_list_spec_witness :
    convertField strptimeIso (.vStr "") (.mk "list" none none none none)
      = (.vList [], none) ∧
    convertField strptimeIso (.vStr "[]")
        (.mk "list" none (some (.mk "objectid" none none none none)) none none)
      = (.vList [], none) ∧
    convertField strptimeIso (.vList [.vStr "507f1f77bcf86cd799439011", .vStr ""])
        (.mk "list" none (some (.mk "objectid" none none none none)) none none)
      = (.vList [.vObjectId "507f1f77bcf86cd799439011", .vNone], none) := by
  obtain ⟨hsent, hsingleton, helem⟩ := convert_list_spec none none none
  have e1 : convertField strptimeIso (.vStr "507f1f77bcf86cd799439011")
      (.mk "objectid" none none none none)
        = (.vObjectId "507f1f77bcf86cd799439011", none) :=
    convertField_objectid_hex none none none none (by decide)
  have e2 : convertField strptimeIso (.vStr "") (.mk "objectid" none none none none)
      = (.vNone, none) :=
    convertField_objectid_falsy none none none none (by decide)
  have hall : ∀ e ∈ [Value.vStr "507f1f77bcf86cd799439011", Value.vStr ""],
      (convertField strptimeIso e (SchemaProp.mk "objectid" none none none none)).2
        = none := by
    intro e he
    simp at he
    rcases he with rfl | rfl
    · rw [e1]
    · rw [e2]
  refine ⟨hsent strptimeIso none (.vStr "") (by decide),
          hsent strptimeIso (some (.mk "objectid" none none none none)) (.vStr "[]")
            (by decide), ?_⟩
  rw [helem strptimeIso [.vStr "507f1f77bcf86cd799439011", .vStr ""]
      (.mk "objectid" none none none none) hall]
  simp [e1, e2]

/-! ### Claim C3: double coercion is not idempotent (counterexample) -/

/-- Counterexample to C3 as stated: coercing `{'d': '2020-01-01T00:00:00'}`
against `{'d': {'type': 'datetime'}}` succeeds, but coercing the already
coerced mapping a second time raises a `TypeError` — `datetime.strptime` is
applied to the converted timestamp, which is not a string. -/
theorem convert_properties_twice_raises :
    convertProperties strptimeIso [("d", .vStr "2020-01-01T00:00:00")]
        [("d", .mk "datetime" none none none none)]
      = ([("d", .vDatetime ⟨2020, 1, 1, 0, 0, 0, some ()⟩)], none) ∧
    (convertProperties strptimeIso [("d", .vDatetime ⟨2020, 1, 1, 0, 0, 0, some ()⟩)]
        [("d", .mk "datetime" none none none none)]).2 = some PyErr.typeError := by
  constructor
  · rw [convertProperties_cons_ok [] (by simp [lookupProp])
        (convertField_datetime_ok none none none none (by decide :
          strptimeIso "2020-01-01T00:00:00" = some ⟨2020, 1, 1, 0, 0, 0, none⟩)),
      convertProperties_nil]
    simp [setKey]
  · rw [convertProperties_cons_err [] (by simp [lookupProp])
        (convertField_datetime_nonstr none none none none
          (show Value.isStr (.vDatetime ⟨2020, 1, 1, 0, 0, 0, some ()⟩) = false
            from by decide))]

/-! ### Size and stability lemmas for the idempotence proof -/

theorem sizeOf_schemaMap_lt (t : String) (sub : List (String × SchemaProp))
    (si vr vs : Option SchemaProp) :
    sizeOf sub < sizeOf (SchemaProp.mk t (some sub) si vr vs) := by
  simp
  all_goals omega

theorem sizeOf_schemaItem_lt (t : String) (sm : Option (List (String × SchemaProp)))
    (isch : SchemaProp) (vr vs : Option SchemaProp) :
    sizeOf isch < sizeOf (SchemaProp.mk t sm (some isch) vr vs) := by
  simp
  all_goals omega

theorem sizeOf_valuesrules_lt (t : String) (sm : Option (List (String × SchemaProp)))
    (si : Option SchemaProp) (dvs : SchemaProp) (vs : Option SchemaProp) :
    sizeOf dvs < sizeOf (SchemaProp.mk t sm si (some dvs) vs) := by
  simp
  all_goals omega

theorem sizeOf_valueschema_lt (t : String) (sm : Option (List (String × SchemaProp)))
    (si vr : Option SchemaProp) (dvs : SchemaProp) :
    sizeOf dvs < sizeOf (SchemaProp.mk t sm si vr (some dvs)) := by
  simp
  all_goals omega

theorem sizeOf_schema_head_lt (prop : String) (sp : SchemaProp) (rest : Schema) :
    sizeOf sp < sizeOf ((prop, sp) :: rest) := by
  simp
  omega

theorem sizeOf_schema_tail_lt (prop : String) (sp : SchemaProp) (rest : Schema) :
    sizeOf rest < sizeOf ((prop, sp) :: rest) := by
  simp

theorem convertProperties_lookup_not_mem (sch : Schema) :
    ∀ (parser : DateParser) (ps : Props) (k : String),
      (∀ p ∈ sch, p.1 ≠ k) →
      lookupProp (convertProperties parser ps sch).1 k = lookupProp ps k := by
  induction sch with
  | nil =>
    intro parser ps k _
    rw [convertProperties_nil]
  | cons entry rest ih =>
    intro parser ps k h
    obtain ⟨prop, sp⟩ := entry
    have hne : k ≠ prop := fun hh => h (prop, sp) (List.mem_cons_self _ _) hh.symm
    have hrest : ∀ p ∈ rest, p.1 ≠ k := fun p hp => h p (List.mem_cons_of_mem _ hp)
    cases hl : lookupProp ps prop with
    | none =>
      rw [convertProperties_cons_absent parser sp rest hl]
      exact ih parser ps k hrest
    | some v =>
      cases hf : convertField parser v sp with
      | mk v' e? =>
        cases e? with
        | some e =>
          rw [convertProperties_cons_err rest hl hf]
          exact lookupProp_setKey_ne ps v' hne
        | none =>
          rw [convertProperties_cons_ok rest hl hf,
            ih parser (setKey ps prop v') k hrest]
          exact lookupProp_setKey_ne ps v' hne

theorem spStable_not_datetime {t : String} {sm : Option (List (String × SchemaProp))}
    {si vr vs : Option SchemaProp} (h : spStable (.mk t sm si vr vs) = true) :
    t ≠ "datetime" := by
  rw [spStable.eq_def] at h
  simp at h
  tauto

theorem spStable_sub {t : String} {sub : List (String × SchemaProp)}
    {si vr vs : Option SchemaProp} (h : spStable (.mk t (some sub) si vr vs) = true) :
    schemaStable sub = true := by
  rw [spStable.eq_def] at h
  simp at h
  tauto

theorem spStable_no_mix_vr {t : String} {sub : List (String × SchemaProp)}
    {si vs : Option SchemaProp} {dvs : SchemaProp}
    (h : spStable (.mk t (some sub) si (some dvs) vs) = true) : False := by
  rw [spStable.eq_def] at h
  simp at h

theorem spStable_no_mix_vs {t : String} {sub : List (String × SchemaProp)}
    {si : Option SchemaProp} {dvs : SchemaProp}
    (h : spStable (.mk t (some sub) si none (some dvs)) = true) : False := by
  rw [spStable.eq_def] at h
  simp at h

theorem spStable_item {t : String} {sm : Option (List (String × SchemaProp))}
    {vr vs : Option SchemaProp} {isch : SchemaProp}
    (h : spStable (.mk t sm (some isch) vr vs) = true) : spStable isch = true := by
  rw [spStable.eq_def] at h
  simp at h
  tauto

theorem spStable_vr {t : String} {sm : Option (List (String × SchemaProp))}
    {si vs : Option SchemaProp} {dvs : SchemaProp}
    (h : spStable (.mk t sm si (some dvs) vs) = true) : spStable dvs = true := by
  rw [spStable.eq_def] at h
  simp at h
  rcases sm with _ | sub
  · tauto
  · exact absurd h (by simp)

theorem spStable_vs {t : String} {sm : Option (List (String × SchemaProp))}
    {si vr : Option SchemaProp} {dvs : SchemaProp}
    (h : spStable (.mk t sm si vr (some dvs)) = true) : spStable dvs = true := by
  rw [spStable.eq_def] at h
  simp at h
  rcases sm with _ | sub
  · tauto
  · rcases vr with _ | p
    · tauto
    · exact absurd h (by simp)

theorem schemaStable_head_keys {prop : String} {sp : SchemaProp} {rest : Schema}
    (h : schemaStable ((prop, sp) :: rest) = true) :
    ∀ p ∈ rest, p.1 ≠ prop := by
  simp [schemaStable] at h
  intro p hp
  exact h.1.1 p.1 p.2 hp

theorem schemaStable_head {prop : String} {sp : SchemaProp} {rest : Schema}
    (h : schemaStable ((prop, sp) :: rest) = true) : spStable sp = true := by
  simp [schemaStable] at h
  tauto

theorem schemaStable_tail {prop : String} {sp : SchemaProp} {rest : Schema}
    (h : schemaStable ((prop, sp) :: rest) = true) : schemaStable rest = true := by
  simp [schemaStable] at h
  tauto

/-- Idempotence of the conversion functions on stable schemas, proved by strong
induction on the size of the schema argument: a successful conversion is a
fixed point of a second conversion under the same (datetime-free, unmixed,
duplicate-free) schema. -/
theorem convert_idem_aux : ∀ n : Nat,
    (∀ sp : SchemaProp, sizeOf sp ≤ n → spStable sp = true →
      ∀ (parser : DateParser) (v v' : Value),
        convertField parser v sp = (v', none) → convertField parser v' sp = (v', none)) ∧
    (∀ sch : Schema, sizeOf sch ≤ n → schemaStable sch = true →
      ∀ (parser : DateParser) (ps ps' : Props),
        convertProperties parser ps sch = (ps', none) →
        convertProperties parser ps' sch = (ps', none)) ∧
    (∀ isch : SchemaProp, sizeOf isch ≤ n → spStable isch = true →
      ∀ (parser : DateParser) (elems elems' : List Value),
        convertElements parser elems isch = (elems', none) →
        convertElements parser elems' isch = (elems', none)) ∧
    (∀ dvs : SchemaProp, sizeOf dvs ≤ n → spStable dvs = true →
      ∀ (parser : DateParser) (entries entries' : List (String × Value)),
        convertDictValues parser entries dvs = (entries', none) →
        convertDictValues parser entries' dvs = (entries', none)) := by
  intro n
  induction n using Nat.strong_induction_on with
  | _ n IH =>
    have hfield : ∀ sp : SchemaProp, sizeOf sp ≤ n → spStable sp = true →
        ∀ (parser : DateParser) (v v' : Value),
          convertField parser v sp = (v', none) → convertField parser v' sp = (v', none) := by
      intro sp hsz hst parser v v' hconv
      obtain ⟨t, sm, si, vr, vs⟩ := sp
      by_cases ht1 : t = "dict"
      · subst ht1
        cases sm with
        | some sub =>
          cases vr with
          | some dvs => exact (spStable_no_mix_vr hst).elim
          | none =>
            cases vs with
            | some dvs => exact (spStable_no_mix_vs hst).elim
            | none =>
              cases v with
              | vDict entries =>
                cases hcp : convertProperties parser entries sub with
                | mk entries1 e? =>
                  cases e? with
                  | none =>
                    rw [convertField_dict_sub_ok si none none hcp] at hconv
                    rw [Prod.mk.injEq] at hconv
                    obtain ⟨rfl, -⟩ := hconv
                    have hlt : sizeOf sub < n :=
                      lt_of_lt_of_le (sizeOf_schemaMap_lt "dict" sub si none none) hsz
                    have h2 := ((IH (sizeOf sub) hlt).2.1) sub le_rfl
                      (spStable_sub hst) parser entries entries1 hcp
                    exact convertField_dict_sub_ok si none none h2
                  | some e =>
                    cases e with
                    | keyError =>
                      rw [convertField_dict_sub_keyError si none none hcp,
                        dictFallback_none] at hconv
                      simp at hconv
                    | typeError =>
                      rw [convertField_dict_sub_err si none none hcp (by simp)] at hconv
                      simp at hconv
                    | parseError =>
                      rw [convertField_dict_sub_err si none none hcp (by simp)] at hconv
                      simp at hconv
                    | invalidId =>
                      rw [convertField_dict_sub_err si none none hcp (by simp)] at hconv
                      simp at hconv
                    | assertionError =>
                      rw [convertField_dict_sub_err si none none hcp (by simp)] at hconv
                      simp at hconv
              | vNone =>
                rw [@convertField_dict_nondict parser Value.vNone sub si none none rfl] at hconv
                simp at hconv
              | vBool b =>
                rw [@convertField_dict_nondict parser (Value.vBool b) sub si none none rfl] at hconv
                simp at hconv
              | vInt i =>
                rw [@convertField_dict_nondict parser (Value.vInt i) sub si none none rfl] at hconv
                simp at hconv
              | vStr s =>
                rw [@convertField_dict_nondict parser (Value.vStr s) sub si none none rfl] at hconv
                simp at hconv
              | vDatetime dt =>
                rw [@convertField_dict_nondict parser (Value.vDatetime dt) sub si none none rfl] at hconv
                simp at hconv
              | vObjectId oid =>
                rw [@convertField_dict_nondict parser (Value.vObjectId oid) sub si none none rfl] at hconv
                simp at hconv
              | vList l =>
                rw [@convertField_dict_nondict parser (Value.vList l) sub si none none rfl] at hconv
                simp at hconv
        | none =>
          rw [convertField_dict_nosub si vr vs] at hconv
          cases vr with
          | some dvs =>
            cases v with
            | vDict entries =>
              rw [dictFallback_vr] at hconv
              cases hc : convertDictValues parser entries dvs with
              | mk entries1 e? =>
                rw [hc] at hconv
                rw [Prod.mk.injEq] at hconv
                obtain ⟨h1, h2⟩ := hconv
                subst h2
                subst h1
                have hlt : sizeOf dvs < n :=
                  lt_of_lt_of_le (sizeOf_valuesrules_lt "dict" none si dvs vs) hsz
                have h3 := ((IH (sizeOf dvs) hlt).2.2.2) dvs le_rfl
                  (spStable_vr hst) parser entries entries1 hc
                rw [convertField_dict_nosub si (some dvs) vs, dictFallback_vr, h3]
            | vNone =>
              rw [@dictFallback_vr_nondict Value.vNone parser dvs vs rfl] at hconv
              simp at hconv
            | vBool b =>
              rw [@dictFallback_vr_nondict (Value.vBool b) parser dvs vs rfl] at hconv
              simp at hconv
            | vInt i =>
              rw [@dictFallback_vr_nondict (Value.vInt i) parser dvs vs rfl] at hconv
              simp at hconv
            | vStr s =>
              rw [@dictFallback_vr_nondict (Value.vStr s) parser dvs vs rfl] at hconv
              simp at hconv
            | vDatetime dt =>
              rw [@dictFallback_vr_nondict (Value.vDatetime dt) parser dvs vs rfl] at hconv
              simp at hconv
            | vObjectId oid =>
              rw [@dictFallback_vr_nondict (Value.vObjectId oid) parser dvs vs rfl] at hconv
              simp at hconv
            | vList l =>
              rw [@dictFallback_vr_nondict (Value.vList l) parser dvs vs rfl] at hconv
              simp at hconv
          | none =>
            cases vs with
            | some dvs =>
              cases v with
              | vDict entries =>
                rw [dictFallback_vs] at hconv
                cases hc : convertDictValues parser entries dvs with
                | mk entries1 e? =>
                  rw [hc] at hconv
                  rw [Prod.mk.injEq] at hconv
                  obtain ⟨h1, h2⟩ := hconv
                  subst h2
                  subst h1
                  have hlt : sizeOf dvs < n :=
                    lt_of_lt_of_le (sizeOf_valueschema_lt "dict" none si none dvs) hsz
                  have h3 := ((IH (sizeOf dvs) hlt).2.2.2) dvs le_rfl
                    (spStable_vs hst) parser entries entries1 hc
                  rw [convertField_dict_nosub si none (some dvs), dictFallback_vs, h3]
              | vNone =>
                rw [@dictFallback_vs_nondict Value.vNone parser dvs rfl] at hconv
                simp at hconv
              | vBool b =>
                rw [@dictFallback_vs_nondict (Value.vBool b) parser dvs rfl] at hconv
                simp at hconv
              | vInt i =>
                rw [@dictFallback_vs_nondict (Value.vInt i) parser dvs rfl] at hconv
                simp at hconv
              | vStr s =>
                rw [@dictFallback_vs_nondict (Value.vStr s) parser dvs rfl] at hconv
                simp at hconv
              | vDatetime dt =>
                rw [@dictFallback_vs_nondict (Value.vDatetime dt) parser dvs rfl] at hconv
                simp at hconv
              | vObjectId oid =>
                rw [@dictFallback_vs_nondict (Value.vObjectId oid) parser dvs rfl] at hconv
                simp at hconv
              | vList l =>
                rw [@dictFallback_vs_nondict (Value.vList l) parser dvs rfl] at hconv
                simp at hconv
            | none =>
              rw [dictFallback_none] at hconv
              simp at hconv
      by_cases ht2 : t = "list"
      · subst ht2
        cases si with
        | none =>
          by_cases hsent : isEmptySentinel v = true
          · rw [convertField_list_sentinel sm none vr vs hsent] at hconv
            rw [Prod.mk.injEq] at hconv
            obtain ⟨rfl, -⟩ := hconv
            exact convertField_list_nosub sm vr vs rfl
          · simp at hsent
            rw [convertField_list_nosub sm vr vs hsent] at hconv
            rw [Prod.mk.injEq] at hconv
            obtain ⟨rfl, -⟩ := hconv
            exact convertField_list_nosub sm vr vs hsent
        | some isch =>
          by_cases hsent : isEmptySentinel v = true
          · rw [convertField_list_sentinel sm (some isch) vr vs hsent] at hconv
            rw [Prod.mk.injEq] at hconv
            obtain ⟨rfl, -⟩ := hconv
            rw [convertField_list_elems sm isch vr vs, convertElements_nil]
          · simp at hsent
            cases v with
            | vList elems =>
              rw [convertField_list_elems sm isch vr vs] at hconv
              cases hce : convertElements parser elems isch with
              | mk elems1 e? =>
                rw [hce] at hconv
                rw [Prod.mk.injEq] at hconv
                obtain ⟨h1, h2⟩ := hconv
                subst h2
                subst h1
                have hlt : sizeOf isch < n :=
                  lt_of_lt_of_le (sizeOf_schemaItem_lt "list" sm isch vr vs) hsz
                have h3 := ((IH (sizeOf isch) hlt).2.2.1) isch le_rfl
                  (spStable_item hst) parser elems elems1 hce
                rw [convertField_list_elems sm isch vr vs, h3]
            | vNone =>
              rw [convertField_list_notlist sm isch vr vs hsent rfl] at hconv
              simp at hconv
            | vBool b =>
              rw [convertField_list_notlist sm isch vr vs hsent rfl] at hconv
              simp at hconv
            | vInt i =>
              rw [convertField_list_notlist sm isch vr vs hsent rfl] at hconv
              simp at hconv
            | vStr s =>
              rw [convertField_list_notlist sm isch vr vs hsent rfl] at hconv
              simp at hconv
            | vDatetime dt =>
              rw [convertField_list_notlist sm isch vr vs hsent rfl] at hconv
              simp at hconv
            | vObjectId oid =>
              rw [convertField_list_notlist sm isch vr vs hsent rfl] at hconv
              simp at hconv
            | vDict d =>
              rw [convertField_list_notlist sm isch vr vs hsent rfl] at hconv
              simp at hconv
      by_cases ht3 : t = "datetime"
      · exact absurd ht3 (spStable_not_datetime hst)
      by_cases ht4 : t = "objectid"
      · subst ht4
        by_cases htr : truthy v = true
        · cases v with
          | vStr s =>
            by_cases hhex : isHex24 s = true
            · rw [convertField_objectid_hex sm si vr vs hhex] at hconv
              rw [Prod.mk.injEq] at hconv
              obtain ⟨rfl, -⟩ := hconv
              exact convertField_objectid_oid s sm si vr vs
            · simp at hhex
              have hie : s.isEmpty = false := by simpa [truthy] using htr
              rw [convertField_objectid_badstr sm si vr vs hhex hie] at hconv
              simp at hconv
          | vObjectId oid =>
            rw [convertField_objectid_oid oid sm si vr vs] at hconv
            rw [Prod.mk.injEq] at hconv
            obtain ⟨rfl, -⟩ := hconv
            exact convertField_objectid_oid oid sm si vr vs
          | vNone =>
            rw [convertField_objectid_other sm si vr vs htr rfl rfl] at hconv
            simp at hconv
          | vBool b =>
            rw [convertField_objectid_other sm si vr vs htr rfl rfl] at hconv
            simp at hconv
          | vInt i =>
            rw [convertField_objectid_other sm si vr vs htr rfl rfl] at hconv
            simp at hconv
          | vDatetime dt =>
            rw [convertField_objectid_other sm si vr vs htr rfl rfl] at hconv
            simp at hconv
          | vList l =>
            rw [convertField_objectid_other sm si vr vs htr rfl rfl] at hconv
            simp at hconv
          | vDict d =>
            rw [convertField_objectid_other sm si vr vs htr rfl rfl] at hconv
            simp at hconv
        · simp at htr
          rw [convertField_objectid_falsy sm si vr vs htr] at hconv
          rw [Prod.mk.injEq] at hconv
          obtain ⟨rfl, -⟩ := hconv
          exact convertField_objectid_falsy sm si vr vs rfl
      · rw [convertField_other sm si vr vs ht1 ht2 ht3 ht4] at hconv
        rw [Prod.mk.injEq] at hconv
        obtain ⟨rfl, -⟩ := hconv
        exact convertField_other sm si vr vs ht1 ht2 ht3 ht4
    have hprops : ∀ sch : Schema, sizeOf sch ≤ n → schemaStable sch = true →
        ∀ (parser : DateParser) (ps ps' : Props),
          convertProperties parser ps sch = (ps', none) →
          convertProperties parser ps' sch = (ps', none) := by
      intro sch
      induction sch with
      | nil =>
        intro _ _ parser ps ps' h
        rw [convertProperties_nil] at h
        rw [Prod.mk.injEq] at h
        obtain ⟨rfl, -⟩ := h
        exact convertProperties_nil parser ps
      | cons entry rest ih =>
        intro hsz hst parser ps ps' h
        obtain ⟨prop, sp⟩ := entry
        have hkeys := schemaStable_head_keys hst
        have hsp := schemaStable_head hst
        have hrest := schemaStable_tail hst
        have hsz_sp : sizeOf sp ≤ n :=
          le_of_lt (lt_of_lt_of_le (sizeOf_schema_head_lt prop sp rest) hsz)
        have hsz_rest : sizeOf rest ≤ n :=
          le_of_lt (lt_of_lt_of_le (sizeOf_schema_tail_lt prop sp rest) hsz)
        cases hl : lookupProp ps prop with
        | none =>
          rw [convertProperties_cons_absent parser sp rest hl] at h
          have hl' : lookupProp ps' prop = none := by
            have hpres := convertProperties_lookup_not_mem rest parser ps prop hkeys
            rw [h] at hpres
            rw [hpres, hl]
          rw [convertProperties_cons_absent parser sp rest hl']
          exact ih hsz_rest hrest parser ps ps' h
        | some v =>
          cases hf : convertField parser v sp with
          | mk v1 e? =>
            cases e? with
            | some e =>
              rw [convertProperties_cons_err rest hl hf] at h
              rw [Prod.mk.injEq] at h
              exact absurd h.2 (by simp)
            | none =>
              rw [convertProperties_cons_ok rest hl hf] at h
              have hl2 : lookupProp (setKey ps prop v1) prop = some v1 :=
                lookupProp_setKey_self v1 hl
              have hl' : lookupProp ps' prop = some v1 := by
                have hpres := convertProperties_lookup_not_mem rest parser
                  (setKey ps prop v1) prop hkeys
                rw [h] at hpres
                rw [hpres, hl2]
              have hf2 : convertField parser v1 sp = (v1, none) :=
                hfield sp hsz_sp hsp parser v v1 hf
              rw [convertProperties_cons_ok rest hl' hf2, setKey_eq_of_lookup hl']
              exact ih hsz_rest hrest parser (setKey ps prop v1) ps' h
    have hlist : ∀ isch : SchemaProp, sizeOf isch ≤ n → spStable isch = true →
        ∀ (parser : DateParser) (elems elems' : List Value),
          convertElements parser elems isch = (elems', none) →
          convertElements parser elems' isch = (elems', none) := by
      intro isch hsz hst parser elems
      induction elems with
      | nil =>
        intro elems' h
        rw [convertElements_nil] at h
        rw [Prod.mk.injEq] at h
        obtain ⟨rfl, -⟩ := h
        exact convertElements_nil parser isch
      | cons e rest ih =>
        intro elems' h
        cases hf : convertField parser e isch with
        | mk e1 err? =>
          cases err? with
          | some err =>
            rw [convertElements_cons_err rest hf] at h
            rw [Prod.mk.injEq] at h
            exact absurd h.2 (by simp)
          | none =>
            rw [convertElements_cons_ok rest hf] at h
            cases hr : convertElements parser rest isch with
            | mk rest1 e2? =>
              rw [hr] at h
              rw [Prod.mk.injEq] at h
              obtain ⟨h1, h2⟩ := h
              subst h2
              subst h1
              have hf2 : convertField parser e1 isch = (e1, none) :=
                hfield isch hsz hst parser e e1 hf
              have hr2 := ih rest1 hr
              rw [convertElements_cons_ok rest1 hf2, hr2]
    have hdict : ∀ dvs : SchemaProp, sizeOf dvs ≤ n → spStable dvs = true →
        ∀ (parser : DateParser) (entries entries' : List (String × Value)),
          convertDictValues parser entries dvs = (entries', none) →
          convertDictValues parser entries' dvs = (entries', none) := by
      intro dvs hsz hst parser entries
      by_cases htype : dvs.ptype = "dict"
      · induction entries with
        | nil =>
          intro entries' h
          rw [convertDictValues_nil parser htype] at h
          rw [Prod.mk.injEq] at h
          obtain ⟨rfl, -⟩ := h
          exact convertDictValues_nil parser htype
        | cons entry rest ih =>
          intro entries' h
          obtain ⟨k, val⟩ := entry
          cases hf : convertField parser val dvs with
          | mk v1 e? =>
            cases e? with
            | some e =>
              rw [convertDictValues_cons_err k rest htype hf] at h
              rw [Prod.mk.injEq] at h
              exact absurd h.2 (by simp)
            | none =>
              rw [convertDictValues_cons_ok k rest htype hf] at h
              cases hr : convertDictValues parser rest dvs with
              | mk rest1 e2? =>
                rw [hr] at h
                rw [Prod.mk.injEq] at h
                obtain ⟨h1, h2⟩ := h
                subst h2
                subst h1
                have hf2 : convertField parser v1 dvs = (v1, none) :=
                  hfield dvs hsz hst parser val v1 hf
                have hr2 := ih rest1 hr
                rw [convertDictValues_cons_ok k rest1 htype hf2, hr2]
      · intro entries' h
        rw [convertDictValues_badtype parser entries htype] at h
        rw [Prod.mk.injEq] at h
        exact absurd h.2 (by simp)
    exact ⟨hfield, hprops, hlist, hdict⟩

/-- C3 (amended): for every properties mapping and every schema that nowhere
declares a `'datetime'`-typed entry, nowhere combines an inner `'schema'` with
`'valuesrules'`/`'valueschema'` on the same dict-typed entry, and has pairwise
distinct keys at every level (as Python dicts guarantee), a successful
application of `convert_properties` is idempotent: coercing the already
coerced mapping a second time returns it unchanged and raises no exception.
(With a datetime entry present the second application raises, see
`convert_properties_twice_raises`.) -/
theorem convert_properties_idempotent_stable
    (parser : DateParser) (ps ps' : Props) (sch : Schema)
    (hst : schemaStable sch = true)
    (h : convertProperties parser ps sch = (ps', none)) :
    convertProperties parser ps' sch = (ps', none) :=
  ((convert_idem_aux (sizeOf sch)).2.1) sch le_rfl hst parser ps ps' h

/-- Witness for the amended C3: an objectid coercion applied twice is the
identity on its own output. -/
theorem convert_properties_idempotent_stable_witness :
    schemaStable [("id", .mk "objectid" none none none none)] = true ∧
    convertProperties strptimeIso [("id", .vStr "507f1f77bcf86cd799439011")]
        [("id", .mk "objectid" none none none none)]
      = ([("id", .vObjectId "507f1f77bcf86cd799439011")], none) ∧
    convertProperties strptimeIso [("id", .vObjectId "507f1f77bcf86cd799439011")]
        [("id", .mk "objectid" none none none none)]
      = ([("id", .vObjectId "507f1f77bcf86cd799439011")], none) := by
  have h1 : schemaStable [("id", SchemaProp.mk "objectid" none none none none)] = true := by
    simp [schemaStable]
    rw [spStable.eq_def]
    simp
  have h2 : convertProperties strptimeIso [("id", .vStr "507f1f77bcf86cd799439011")]
      [("id", SchemaProp.mk "objectid" none none none none)]
        = ([("id", .vObjectId "507f1f77bcf86cd799439011")], none) := by
    rw [convertProperties_cons_ok [] (by simp [lookupProp])
        (convertField_objectid_hex none none none none
          (show isHex24 "507f1f77bcf86cd799439011" = true from by decide)),
      convertProperties_nil]
    simp [setKey]
  exact ⟨h1, h2,
    convert_properties_idempotent_stable strptimeIso _ _ _ h1 h2⟩
